import Mathlib

/-!
Verification of the bootstrap core of the go-cli template (byteowlz/templates).

This file shallowly embeds the Go sources of the template's runtime core:
path resolution (`paths.go`), path expansion (`util.go`), configuration
loading (`config.go`), directory creation, logger configuration and the
runtime context assembler (`context.go`, `logging.go`, `root.go`).

Modelling conventions:
- The embedding targets a Unix platform (`runtime.GOOS` is not `"windows"`
  and not `"darwin"`), matching the platform-conditional branches in the
  source that are dead on Linux.
- Machine integers (`int`) are modelled as `Int`; flag counters as `Nat`.
- The process environment, the controlling terminal and the set of paths on
  which opening a log file would fail are captured in an immutable `Env`
  record; the mutable filesystem is an explicit `Fs` state threaded through
  every effectful operation, which returns `Except BootErr α × Fs` so that
  partial effects before a failure are preserved.
- The filesystem stores configuration files in already-parsed form
  (`FileDoc`), because full TOML parsing is out of scope; `writeDefaultConfig`
  stores the parse of the generated template (`defaultFileDoc`, whose numbers
  are cross-checked against the literal template text `defaultConfigBody`).
- The viper merge (defaults < file < environment, with `AutomaticEnv`, the
  `GO_CLI` prefix and the `.` to `__` key replacer) is modelled per
  configuration key; environment values win for keys known to viper (present
  in the file or carrying a default) and are weakly parsed, as viper's
  mapstructure decoder does.
-/

/-! ## Basic string helpers (byte strings are ASCII throughout the source) -/

/-- Character-list split on a separator, keeping empty components. -/
def splitOnChar (sep : Char) : List Char → List (List Char)
  | [] => [[]]
  | c :: rest =>
    let r := splitOnChar sep rest
    if c = sep then [] :: r
    else
      match r with
      | h :: t => (c :: h) :: t
      | [] => [[c]]

/-- Join character-list components with a separator character. -/
def joinComps (sep : Char) : List (List Char) → List Char
  | [] => []
  | [x] => x
  | x :: xs => x ++ sep :: joinComps sep xs

/-- Does the string start with the given other string (Go strings.HasPrefix)? -/
def strStartsWith (s pre : String) : Bool :=
  pre.data.isPrefixOf s.data

/-- Drop the first n bytes of a string (ASCII prefixes only in this source). -/
def strDrop (s : String) (n : Nat) : String :=
  String.mk (s.data.drop n)

/-- ASCII lower-casing, the fragment of Go strings.ToLower the source needs. -/
def lowerStr (s : String) : String :=
  String.mk (s.data.map Char.toLower)

/-- ASCII upper-casing, the fragment of Go strings.ToUpper the source needs. -/
def upperAscii (s : String) : String :=
  String.mk (s.data.map (fun c =>
    if 'a' ≤ c ∧ c ≤ 'z' then Char.ofNat (c.toNat - 32) else c))

/-- Split a string into lines on the newline character. -/
def splitLines (s : String) : List String :=
  (splitOnChar '\n' s.data).map String.mk

/-- Parse a non-empty all-digit character list as a natural number. -/
def digitsToNat (cs : List Char) : Option Nat :=
  if cs = [] ∨ ¬ cs.all Char.isDigit then none
  else some (cs.foldl (fun acc c => acc * 10 + (c.toNat - '0'.toNat)) 0)

/-- Decimal integer parsing with optional sign (the fragment of Go
strconv.ParseInt that viper's weakly-typed decoding uses on the values at
play here). -/
def parseIntStr (s : String) : Option Int :=
  match s.data with
  | '-' :: rest => (digitsToNat rest).map (fun n => -(n : Int))
  | '+' :: rest => (digitsToNat rest).map Int.ofNat
  | ds => (digitsToNat ds).map Int.ofNat

/-- Go strconv.ParseBool: the exact accepted spellings. -/
def parseBoolStr (s : String) : Option Bool :=
  if s = "1" ∨ s = "t" ∨ s = "T" ∨ s = "true" ∨ s = "TRUE" ∨ s = "True" then some true
  else if s = "0" ∨ s = "f" ∨ s = "F" ∨ s = "false" ∨ s = "FALSE" ∨ s = "False" then some false
  else none

/-- Is an Except value an error? -/
def isErr {ε α : Type} : Except ε α → Bool
  | .error _ => true
  | .ok _ => false

/-! ## Go path/filepath on Unix: Clean, Join, Dir -/

/-- One step of the lexical cleaning loop of Go filepath.Clean: process one
path component against the (reversed) output stack. -/
def cleanStep (rooted : Bool) (acc : List (List Char)) (comp : List Char) : List (List Char) :=
  if comp = [] ∨ comp = ['.'] then acc
  else if comp = ['.', '.'] then
    match acc with
    | [] => if rooted then [] else [['.', '.']]
    | h :: t => if h = ['.', '.'] then comp :: acc else t
  else comp :: acc

/-- Go filepath.Clean for Unix paths: collapse slashes, drop `.`, resolve
`..` lexically, never return the empty string. -/
def filepathClean (p : String) : String :=
  match p.data with
  | [] => "."
  | c :: cs =>
    let rooted := c = '/'
    let comps := splitOnChar '/' (c :: cs)
    let out := (comps.foldl (cleanStep rooted) []).reverse
    if rooted then String.mk ('/' :: joinComps '/' out)
    else if out = [] then "."
    else String.mk (joinComps '/' out)

/-- Go filepath.Join on Unix: skip leading empty elements, join the rest with
a slash (later empties included), then Clean; all-empty input gives "". -/
def filepathJoinList (elems : List String) : String :=
  match elems.dropWhile (fun s => s = "") with
  | [] => ""
  | rest => filepathClean (String.mk (joinComps '/' (rest.map String.data)))

/-- Go filepath.Dir on Unix: everything up to and including the final slash,
cleaned; "." when there is no slash. -/
def filepathDir (p : String) : String :=
  filepathClean (String.mk ((p.data.reverse.dropWhile (fun c => c ≠ '/')).reverse))

/-! ## Process environment and os.Expand / expandPath (util.go) -/

/-- Immutable per-invocation surroundings: environment variables, whether the
standard error stream is an interactive terminal, and the set of paths on
which opening a log file for append would fail (permissions and the like). -/
structure Env where
  vars : List (String × String) := []
  stderrTerminal : Bool := false
  badLogPaths : List String := []
deriving DecidableEq, Repr

/-- Go os.Getenv: the empty string when the variable is unset. -/
def getenvStr (e : Env) (k : String) : String :=
  (e.vars.lookup k).getD ""

/-- Environment lookup that treats an empty value as unset, the pattern
used throughout paths.go and by viper with AllowEmptyEnv unset. -/
def getenvNE (e : Env) (k : String) : Option String :=
  let v := getenvStr e k
  if v = "" then none else some v

/-- Go os.UserHomeDir on Unix: the HOME variable, an error when empty. -/
def userHomeDir (e : Env) : Option String :=
  getenvNE e "HOME"

/-- Go os.Expand: is the character a shell special variable character? -/
def isShellSpecialVar (c : Char) : Bool :=
  c = '*' ∨ c = '#' ∨ c = '$' ∨ c = '@' ∨ c = '!' ∨ c = '?' ∨ c = '-' ∨
    ('0' ≤ c ∧ c ≤ '9')

/-- Go os.Expand: alphanumeric or underscore (byte ranges). -/
def isAlphaNumChar (c : Char) : Bool :=
  c = '_' ∨ ('0' ≤ c ∧ c ≤ '9') ∨ ('a' ≤ c ∧ c ≤ 'z') ∨ ('A' ≤ c ∧ c ≤ 'Z')

/-- The opening curly bracket character. -/
def lbraceChar : Char := Char.ofNat 123

/-- The closing curly bracket character. -/
def rbraceChar : Char := Char.ofNat 125

/-- Go os.Expand getShellName on the text after a dollar sign: the variable
name found and the number of characters consumed. -/
def getShellName (s : List Char) : String × Nat :=
  match s with
  | [] => ("", 0)
  | c :: rest =>
    if c = lbraceChar then
      match rest with
      | c1 :: c2 :: _ =>
        if isShellSpecialVar c1 ∧ c2 = rbraceChar then (String.mk [c1], 3)
        else
          match rest.findIdx? (fun x => x = rbraceChar) with
          | some 0 => ("", 2)
          | some i => (String.mk (rest.take i), i + 2)
          | none => ("", 1)
      | _ =>
        match rest.findIdx? (fun x => x = rbraceChar) with
        | some 0 => ("", 2)
        | some i => (String.mk (rest.take i), i + 2)
        | none => ("", 1)
    else if isShellSpecialVar c then (String.mk [c], 1)
    else
      let nm := s.takeWhile isAlphaNumChar
      (String.mk nm, nm.length)

/-- The scanning loop of Go os.Expand, fuelled so that it is structural; the
fuel is always at least the number of characters left, and every step
consumes at least one character. -/
def expandAux (e : Env) : Nat → List Char → List Char
  | 0, xs => xs
  | _ + 1, [] => []
  | fuel + 1, c :: rest =>
    if c = '$' then
      match rest with
      | [] => ['$']
      | _ :: _ =>
        let (name, w) := getShellName rest
        if name = "" ∧ w > 0 then expandAux e fuel (rest.drop w)
        else if name = "" then '$' :: expandAux e fuel rest
        else (getenvStr e name).data ++ expandAux e fuel (rest.drop w)
    else c :: expandAux e fuel rest

/-- Go os.ExpandEnv: replace embedded environment-variable references. -/
def osExpandEnv (e : Env) (s : String) : String :=
  String.mk (expandAux e (s.data.length + 1) s.data)

/-- The error taxonomy of the bootstrap sequence (spec section 7). -/
inductive BootErr where
  | homeDirectoryUnavailable
  | configUnreadable
  | configWriteFailed
  | decodeFailed
  | directoryCreateFailed
  | logFileOpenFailed
  | invalidColorPolicy
  | conflictingOutputFormat
deriving DecidableEq, Repr

/-- expandPath from util.go: expand environment references, then substitute
the home directory for a leading `~` or `~/` (leaving `~user` untouched),
then clean; the empty string maps to itself with no error. -/
def expandPath (e : Env) (path : String) : Except BootErr String :=
  if path = "" then .ok ""
  else
    let result := osExpandEnv e path
    if strStartsWith result "~" then
      match userHomeDir e with
      | none => .error .homeDirectoryUnavailable
      | some home =>
        let result :=
          if result = "~" then home
          else if strStartsWith result "~/" then filepathJoinList [home, strDrop result 2]
          else result
        .ok (filepathClean result)
    else .ok (filepathClean result)

deriving instance DecidableEq for Except

/-! ## Configuration data model (config.go) -/

/-- The fixed application name baked into the template (context.go). -/
def appName : String := "go-cli"

/-- LoggingConfig from config.go. -/
structure LoggingConfig where
  level : String := ""
  file : String := ""
deriving DecidableEq, Repr

/-- RuntimeConfig from config.go; Go nilable int pointers are options. -/
structure RuntimeConfig where
  parallelism : Option Int := none
  timeoutSeconds : Option Int := none
  failFast : Bool := false
deriving DecidableEq, Repr

/-- PathsConfig from config.go. -/
structure PathsConfig where
  dataDir : String := ""
  stateDir : String := ""
deriving DecidableEq, Repr

/-- AppConfig from config.go. -/
structure AppConfig where
  profile : String := ""
  logging : LoggingConfig := {}
  runtime : RuntimeConfig := {}
  paths : PathsConfig := {}
deriving DecidableEq, Repr

/-- defaultConfig from config.go. -/
def defaultConfig : AppConfig :=
  { profile := "default"
    logging := { level := "info" }
    runtime := { timeoutSeconds := some 60, failFast := true } }

/-- CommonFlags from flags.go. -/
structure CommonFlags where
  configPath : String := ""
  quiet : Bool := false
  verbose : Nat := 0
  debug : Bool := false
  trace : Bool := false
  json : Bool := false
  yaml : Bool := false
  noColor : Bool := false
  color : String := "auto"
  dryRun : Bool := false
  assumeYes : Bool := false
  timeoutSeconds : Option Int := none
  parallelism : Option Int := none
  noProgress : Bool := false
  diagnostics : Bool := false
deriving DecidableEq, Repr

/-- AppPaths from paths.go. -/
structure AppPaths where
  configFile : String := ""
  dataDir : String := ""
  stateDir : String := ""
deriving DecidableEq, Repr

/-- The parsed contents of a TOML configuration file, one optional slot per
key the schema admits; a missing slot is a key absent from the file. -/
structure FileDoc where
  profile : Option String := none
  loggingLevel : Option String := none
  loggingFile : Option String := none
  runtimeParallelism : Option Int := none
  runtimeTimeout : Option Int := none
  runtimeFailFast : Option Bool := none
  pathsDataDir : Option String := none
  pathsStateDir : Option String := none
deriving DecidableEq, Repr

/-- The parse of an empty file: no keys at all. -/
def emptyFileDoc : FileDoc := {}

/-- defaultConfigBody from config.go: the literal TOML template written to
disk when no configuration file exists (appName spliced in as in the
source). -/
def defaultConfigBody : String :=
  "profile = \"default\"\n\n[logging]\n# Valid levels: error, warn, info, debug, trace\nlevel = \"info\"\n# Optional path for log file output; supports ~ and environment variables.\n# file = \"~/Library/Logs/" ++ appName ++ ".log\"\n\n[runtime]\n# Override the worker pool size; defaults to logical CPU count when unset.\n# parallelism = 8\n# Timeout in seconds for long-running operations.\ntimeout = 60\nfail_fast = true\n\n[paths]\n# Uncomment to move persistent data/state to custom directories.\n# data_dir = \"$XDG_DATA_HOME/" ++ appName ++ "\"\n# state_dir = \"$XDG_STATE_HOME/" ++ appName ++ "\"\n"

/-- The numeric value of the live `timeout = ...` line of the generated
on-disk template, read off the template text itself. -/
def templateTimeout : Option Nat :=
  (splitLines defaultConfigBody).findSome? (fun l =>
    if strStartsWith l "timeout = " then digitsToNat (l.data.drop 10) else none)

/-- The parse of the generated template `defaultConfigBody`: the live keys
(profile, logging.level, runtime.timeout, runtime.fail_fast); every other
key only appears in comments. -/
def defaultFileDoc : FileDoc :=
  { profile := some "default"
    loggingLevel := some "info"
    runtimeTimeout := some 60
    runtimeFailFast := some true }

/-! ## The viper merge (config.go lines building the viper instance) -/

/-- toEnvPrefix from util.go (renamed: Lean-side naming constraint). -/
def toEnvPrefixStr (name : String) : String :=
  String.mk (name.data.map (fun r =>
    if 'a' ≤ r ∧ r ≤ 'z' then Char.ofNat (r.toNat - 32)
    else if 'A' ≤ r ∧ r ≤ 'Z' then r
    else if '0' ≤ r ∧ r ≤ '9' then r
    else '_'))

/-- EnvPrefix from context.go. -/
def envPrefixStr : String := toEnvPrefixStr appName

/-- The environment variable viper consults for a configuration key:
upper-case of prefix, underscore and key, with dots replaced by double
underscores (SetEnvPrefix plus SetEnvKeyReplacer). -/
def envKeyFor (key : String) : String :=
  String.mk ((upperAscii (envPrefixStr ++ "_" ++ key)).data.flatMap (fun c =>
    if c = '.' then ['_', '_'] else [c]))

/-- viper's automatic-env lookup: present and non-empty (AllowEmptyEnv is
unset). -/
def viperEnvLookup (e : Env) (key : String) : Option String :=
  getenvNE e (envKeyFor key)

/-- Merge one string-valued key: the environment wins when the key is known
to viper (present in the file or carrying a default), then the file, then
the default. -/
def mergeStrField (e : Env) (key : String) (fileV dflt : Option String) : Option String :=
  if fileV = none ∧ dflt = none then none
  else
    match viperEnvLookup e key with
    | some v => some v
    | none =>
      match fileV with
      | some v => some v
      | none => dflt

/-- Merge one integer-valued key; a winning environment value is weakly
parsed, and an unparseable one fails the decode. -/
def mergeIntField (e : Env) (key : String) (fileV dflt : Option Int) :
    Except BootErr (Option Int) :=
  if fileV = none ∧ dflt = none then .ok none
  else
    match viperEnvLookup e key with
    | some s =>
      match parseIntStr s with
      | some n => .ok (some n)
      | none => .error .decodeFailed
    | none => .ok (match fileV with
      | some v => some v
      | none => dflt)

/-- Merge one boolean-valued key; a winning environment value is parsed with
strconv.ParseBool, and an unparseable one fails the decode. -/
def mergeBoolField (e : Env) (key : String) (fileV dflt : Option Bool) :
    Except BootErr (Option Bool) :=
  if fileV = none ∧ dflt = none then .ok none
  else
    match viperEnvLookup e key with
    | some s =>
      match parseBoolStr s with
      | some b => .ok (some b)
      | none => .error .decodeFailed
    | none => .ok (match fileV with
      | some v => some v
      | none => dflt)

/-- v.Unmarshal(&cfg) over the settings viper holds: defaults for profile,
logging.level, runtime.timeout and runtime.fail_fast, the file layer, and
automatic environment overrides; the destination starts as defaultConfig,
so keys viper does not know keep their defaultConfig values. -/
def viperUnmarshal (e : Env) (d : FileDoc) : Except BootErr AppConfig := do
  let timeout ← mergeIntField e "runtime.timeout" d.runtimeTimeout (some 60)
  let par ← mergeIntField e "runtime.parallelism" d.runtimeParallelism none
  let ff ← mergeBoolField e "runtime.fail_fast" d.runtimeFailFast (some true)
  let profile := mergeStrField e "profile" d.profile (some "default")
  let lvl := mergeStrField e "logging.level" d.loggingLevel (some "info")
  let lfile := mergeStrField e "logging.file" d.loggingFile none
  let pdata := mergeStrField e "paths.data_dir" d.pathsDataDir none
  let pstate := mergeStrField e "paths.state_dir" d.pathsStateDir none
  .ok { profile := profile.getD "default"
        logging := { level := lvl.getD "info", file := lfile.getD "" }
        runtime := { parallelism := par, timeoutSeconds := timeout, failFast := ff.getD true }
        paths := { dataDir := pdata.getD "", stateDir := pstate.getD "" } }

/-! ## Filesystem state and the config loader (config.go, paths.go) -/

/-- The mutable filesystem state: configuration files (with parsed
contents), log files created by opening them, and directories. -/
structure Fs where
  files : List (String × FileDoc) := []
  logFiles : List String := []
  dirs : List String := []
deriving DecidableEq, Repr

/-- The empty filesystem. -/
def emptyFs : Fs := {}

/-- Does a regular file (configuration or log) exist at the path? -/
def fileExistsAt (p : String) (fs : Fs) : Bool :=
  (fs.files.lookup p).isSome || decide (p ∈ fs.logFiles)

/-- os.Stat succeeds: some entry (file, log file or directory) exists. -/
def statExists (p : String) (fs : Fs) : Bool :=
  fileExistsAt p fs || decide (p ∈ fs.dirs)

/-- os.Stat succeeds and reports a directory. -/
def statIsDir (p : String) (fs : Fs) : Bool :=
  decide (p ∈ fs.dirs)

/-- os.MkdirAll: succeed without change when the directory exists, fail when
a regular file occupies the path, create the directory otherwise. -/
def mkdirAll (dir : String) (fs : Fs) : Except BootErr Unit × Fs :=
  if dir ∈ fs.dirs then (.ok (), fs)
  else if fileExistsAt dir fs then (.error .directoryCreateFailed, fs)
  else (.ok (), { fs with dirs := dir :: fs.dirs })

/-- writeDefaultConfig from config.go: create the parent directory, then
write the generated template (stored in parsed form); writing onto an
existing directory fails. -/
def writeDefaultConfig (path : String) (fs : Fs) : Except BootErr Unit × Fs :=
  match mkdirAll (filepathDir path) fs with
  | (.error _, fs1) => (.error .configWriteFailed, fs1)
  | (.ok _, fs1) =>
    if path ∈ fs1.dirs then (.error .configWriteFailed, fs1)
    else (.ok (), { fs1 with files := (path, defaultFileDoc) :: fs1.files })

/-- The outcome of viper's ReadInConfig on the configured file. -/
inductive ReadResult where
  | doc (d : FileDoc)
  | missing
  | unreadable
deriving DecidableEq, Repr

/-- Read the configuration file: parsed contents for a stored file, the
empty document for a file created as a log file, a read error for a
directory, and missing otherwise. -/
def readConfigFile (path : String) (fs : Fs) : ReadResult :=
  match fs.files.lookup path with
  | some d => .doc d
  | none =>
    if path ∈ fs.logFiles then .doc emptyFileDoc
    else if path ∈ fs.dirs then .unreadable
    else .missing

/-- The tail of LoadOrInitConfig after ReadInConfig: unmarshal the merged
settings, expand a non-empty logging.file, and substitute the timeout
default when the merge left it unset. -/
def finishLoad (e : Env) (d : FileDoc) : Except BootErr AppConfig := do
  let cfg ← viperUnmarshal e d
  let cfg ←
    if cfg.logging.file ≠ "" then
      match expandPath e cfg.logging.file with
      | .error er => .error er
      | .ok ex => .ok { cfg with logging := { cfg.logging with file := ex } }
    else .ok cfg
  let cfg :=
    if cfg.runtime.timeoutSeconds = none then
      { cfg with runtime := { cfg.runtime with timeoutSeconds := some 60 } }
    else cfg
  .ok cfg

/-- ReadInConfig plus the error tolerance of config.go: a missing file is
tolerated only under dry-run (viper's not-found leniency does not apply
when the file is set explicitly). -/
def loadConfigBody (e : Env) (paths : AppPaths) (flags : CommonFlags) (fs : Fs) :
    Except BootErr AppConfig :=
  match readConfigFile paths.configFile fs with
  | .unreadable => .error .configUnreadable
  | .missing => if flags.dryRun then finishLoad e emptyFileDoc else .error .configUnreadable
  | .doc d => finishLoad e d

/-- LoadOrInitConfig from config.go: write the default template when the
file does not exist (a dry run only reports the intent), then load and
merge. -/
def loadOrInitConfig (e : Env) (paths : AppPaths) (flags : CommonFlags) (fs : Fs) :
    Except BootErr AppConfig × Fs :=
  if statExists paths.configFile fs then
    (loadConfigBody e paths flags fs, fs)
  else if flags.dryRun then
    (loadConfigBody e paths flags fs, fs)
  else
    match writeDefaultConfig paths.configFile fs with
    | (.error er, fs1) => (.error er, fs1)
    | (.ok _, fs1) => (loadConfigBody e paths flags fs1, fs1)

/-! ## Path resolution (paths.go) -/

/-- Go os.UserConfigDir on Unix: XDG_CONFIG_HOME, else HOME/.config. -/
def userConfigDir (e : Env) : Option String :=
  match getenvNE e "XDG_CONFIG_HOME" with
  | some dir => some dir
  | none =>
    match userHomeDir e with
    | some home => some (home ++ "/.config")
    | none => none

/-- defaultConfigDir from paths.go (the Windows branch is dead on Unix). -/
def defaultConfigDir (e : Env) (app : String) : Except BootErr String :=
  match getenvNE e "XDG_CONFIG_HOME" with
  | some dir => .ok (filepathJoinList [dir, app])
  | none =>
    match userConfigDir e with
    | some dir =>
      if dir ≠ "" then .ok (filepathJoinList [dir, app])
      else match userHomeDir e with
        | some home => .ok (filepathJoinList [home, ".config", app])
        | none => .error .homeDirectoryUnavailable
    | none =>
      match userHomeDir e with
      | some home => .ok (filepathJoinList [home, ".config", app])
      | none => .error .homeDirectoryUnavailable

/-- defaultDataDir from paths.go (the Windows and darwin branches are dead
on Linux). -/
def defaultDataDir (e : Env) (app : String) : Except BootErr String :=
  match getenvNE e "XDG_DATA_HOME" with
  | some dir => .ok (filepathJoinList [dir, app])
  | none =>
    match userHomeDir e with
    | some home => .ok (filepathJoinList [home, ".local", "share", app])
    | none => .error .homeDirectoryUnavailable

/-- defaultStateDir from paths.go (the Windows branch is dead on Unix). -/
def defaultStateDir (e : Env) (app : String) : Except BootErr String :=
  match getenvNE e "XDG_STATE_HOME" with
  | some dir => .ok (filepathJoinList [dir, app])
  | none =>
    match userHomeDir e with
    | some home => .ok (filepathJoinList [home, ".local", "state", app])
    | none => .error .homeDirectoryUnavailable

/-- resolveConfigFile from paths.go: an expanded non-empty override is used
as a directory (joined with config.toml) when it names an existing
directory and as a file path otherwise; without an override the platform
config directory is used. -/
def resolveConfigFile (e : Env) (app override : String) (fs : Fs) : Except BootErr String :=
  if override ≠ "" then
    match expandPath e override with
    | .error er => .error er
    | .ok path =>
      if statIsDir path fs then .ok (filepathJoinList [path, "config.toml"])
      else .ok path
  else
    match defaultConfigDir e app with
    | .error er => .error er
    | .ok dir => .ok (filepathJoinList [dir, "config.toml"])

/-- DiscoverPaths from paths.go. -/
def discoverPaths (e : Env) (app override : String) (fs : Fs) : Except BootErr AppPaths := do
  let configFile ← resolveConfigFile e app override fs
  let dataDir ← defaultDataDir e app
  let stateDir ← defaultStateDir e app
  .ok { configFile := configFile, dataDir := dataDir, stateDir := stateDir }

/-- ApplyPathOverrides from paths.go: replace dataDir and stateDir with the
expansions of non-empty configured overrides; a pure function of its
arguments, no filesystem access. -/
def applyPathOverrides (e : Env) (paths : AppPaths) (cfg : AppConfig) :
    Except BootErr AppPaths := do
  let d ← if cfg.paths.dataDir ≠ "" then expandPath e cfg.paths.dataDir else pure paths.dataDir
  let s ← if cfg.paths.stateDir ≠ "" then expandPath e cfg.paths.stateDir else pure paths.stateDir
  pure { paths with dataDir := d, stateDir := s }

/-- EnsureDirectories from paths.go: a no-op under dry-run; otherwise create
each non-empty directory of dataDir and stateDir in order. -/
def ensureDirectories (paths : AppPaths) (flags : CommonFlags) (fs : Fs) :
    Except BootErr Unit × Fs :=
  if flags.dryRun then (.ok (), fs)
  else
    match (if paths.dataDir = "" then (.ok (), fs) else mkdirAll paths.dataDir fs) with
    | (.error er, fs1) => (.error er, fs1)
    | (.ok _, fs1) =>
      match (if paths.stateDir = "" then (.ok (), fs1) else mkdirAll paths.stateDir fs1) with
      | (.error er, fs2) => (.error er, fs2)
      | (.ok _, fs2) => (.ok (), fs2)

/-! ## Logging (logging.go) -/

/-- Level from logging.go: severities in ascending verbosity order. -/
inductive Level where
  | error
  | warn
  | info
  | debug
  | trace
deriving DecidableEq, Repr

/-- The integer value of a Level constant in the Go source. -/
def Level.toNat : Level → Nat
  | .error => 0
  | .warn => 1
  | .info => 2
  | .debug => 3
  | .trace => 4

/-- parseLevel from logging.go: case-insensitive, defaulting to info. -/
def parseLevel (value : String) : Level :=
  let v := lowerStr value
  if v = "trace" then .trace
  else if v = "debug" then .debug
  else if v = "warn" then .warn
  else if v = "error" then .error
  else .info

/-- An output sink: standard error, the discard target, or a named file. -/
inductive Sink where
  | stderr
  | discard
  | file (path : String)
deriving DecidableEq, Repr

/-- An open operating-system file handle: its path and whether it has been
closed (os.File close-tracking is what claim C7 needs). -/
structure OSFile where
  path : String := ""
  closed : Bool := false
deriving DecidableEq, Repr

/-- LogSettings from logging.go. -/
structure LogSettings where
  level : Level := .error
  diagnostics : Bool := false
  colorize : Bool := false
  writers : List Sink := []
  fileHandle : Option OSFile := none
deriving DecidableEq, Repr

/-- shouldColorize from logging.go: "always" and "never" are absolute, any
other policy falls back to whether standard error is a terminal. -/
def shouldColorize (policy : String) (stderrIsTerminal : Bool) : Bool :=
  if policy = "always" then true
  else if policy = "never" then false
  else stderrIsTerminal

/-- The level switch at the head of ResolveLogSettings: the Go switch
statement assigning over the parsed configured level, case by case in
source order. -/
def resolvedLevel (flags : CommonFlags) (cfg : AppConfig) : Level :=
  let level0 := parseLevel cfg.logging.level
  if flags.trace then Level.trace
  else if flags.debug then Level.debug
  else if 2 ≤ flags.verbose then Level.trace
  else if flags.verbose = 1 then Level.debug
  else if flags.quiet ∧ level0.toNat > Level.error.toNat then Level.error
  else level0

/-- The color policy of ResolveLogSettings: the color flag, forced to never
by the noColor flag. -/
def resolvedColorPolicy (flags : CommonFlags) : String :=
  if flags.noColor then "never" else flags.color

/-- ResolveLogSettings from logging.go: the level switch, the color policy,
the sink selection, and opening the configured log file for append unless
dry-run (failure is fatal; opening creates the file when absent). -/
def resolveLogSettings (e : Env) (flags : CommonFlags) (cfg : AppConfig) (fs : Fs) :
    Except BootErr LogSettings × Fs :=
  let level := resolvedLevel flags cfg
  let colorize := shouldColorize (resolvedColorPolicy flags) e.stderrTerminal
  let writers : List Sink := if flags.quiet then [.discard] else [.stderr]
  if cfg.logging.file ≠ "" ∧ ¬ flags.dryRun then
    if cfg.logging.file ∈ fs.dirs ∨ cfg.logging.file ∈ e.badLogPaths then
      (.error .logFileOpenFailed, fs)
    else
      let fs1 :=
        if fileExistsAt cfg.logging.file fs then fs
        else { fs with logFiles := cfg.logging.file :: fs.logFiles }
      let writers :=
        if ¬ flags.quiet then writers ++ [Sink.file cfg.logging.file]
        else [Sink.file cfg.logging.file]
      (.ok { level := level, diagnostics := flags.diagnostics, colorize := colorize,
             writers := writers,
             fileHandle := some { path := cfg.logging.file, closed := false } }, fs1)
  else
    (.ok { level := level, diagnostics := flags.diagnostics, colorize := colorize,
           writers := writers, fileHandle := none }, fs)

/-- Logger from logging.go (the mutex only serializes writes and carries no
state visible to these claims). -/
structure Logger where
  settings : LogSettings := {}
deriving DecidableEq, Repr

/-- ConfigureLogger from logging.go: substitute the discard sink when the
supplied writer list is empty. -/
def configureLogger (settings : LogSettings) : Logger :=
  let settings :=
    if settings.writers = [] then { settings with writers := [Sink.discard] }
    else settings
  { settings := settings }

/-- levelAttributes from logging.go: label and ANSI color per level. -/
def levelAttributes : Level → String × String
  | .error => ("ERROR", "\x1b[31m")
  | .warn => ("WARN", "\x1b[33m")
  | .info => ("INFO", "\x1b[36m")
  | .debug => ("DEBUG", "\x1b[35m")
  | .trace => ("TRACE", "\x1b[34m")

/-- resetColor from logging.go. -/
def resetColor : String := "\x1b[0m"

/-- Left-justified padding to width five, the %-5s directive. -/
def padWidth5 (s : String) : String :=
  s ++ String.mk (List.replicate (5 - s.data.length) ' ')

/-- formatMessage from logging.go; the message body is taken already
formatted and the timestamp is passed in (time.Now is not modelled). -/
def formatMessage (level : Level) (settings : LogSettings) (msg now : String) : String :=
  let (label, color) := levelAttributes level
  let label :=
    if settings.colorize ∧ color ≠ "" then color ++ label ++ resetColor
    else label
  if settings.diagnostics then "[" ++ now ++ "] " ++ padWidth5 label ++ " " ++ msg
  else padWidth5 label ++ " " ++ msg

/-- Logger.log from logging.go: emit nothing above the configured level,
otherwise write the formatted line (with a trailing newline) to every sink, in
order; the emissions are returned as a list of sink-line pairs. -/
def loggerLog (l : Logger) (level : Level) (msg now : String) : List (Sink × String) :=
  if level.toNat > l.settings.level.toNat then []
  else l.settings.writers.map (fun w => (w, formatMessage level l.settings msg now ++ "\n"))

/-! ## Closing (context.go Close, logging.go Logger.Close, os.File.Close) -/

/-- Go os.File Close: the second close of a handle fails with the
already-closed error. -/
def osFileClose (f : OSFile) : Except String OSFile :=
  if f.closed then .error ("close " ++ f.path ++ ": file already closed")
  else .ok { f with closed := true }

/-- Logger.Close from logging.go: close the optional file handle. -/
def loggerClose (l : Logger) : Except String Logger :=
  match l.settings.fileHandle with
  | some f =>
    match osFileClose f with
    | .error er => .error er
    | .ok f1 => .ok { l with settings := { l.settings with fileHandle := some f1 } }
  | none => .ok l

/-! ## Runtime context assembler (context.go, root.go) -/

/-- RuntimeContext from context.go, minus the embedded context.Context
carrier (not representable; it holds no data these claims touch). -/
structure RtxData where
  common : CommonFlags := {}
  paths : AppPaths := {}
  config : AppConfig := {}
  logger : Logger := {}
  logSettings : LogSettings := {}
deriving DecidableEq, Repr

/-- RuntimeContext.Close from context.go: nil receives a nil error, otherwise
the logger (and through it the shared file handle) is closed; the updated
context is returned because the handle state is threaded explicitly. -/
def rtxClose (rtx : Option RtxData) : Except String (Option RtxData) :=
  match rtx with
  | none => .ok none
  | some r =>
    match loggerClose r.logger with
    | .error er => .error er
    | .ok lg => .ok (some { r with logger := lg })

/-- NewRuntimeContext from context.go: discover paths, load or initialize
the configuration, apply path overrides, ensure directories, resolve log
settings and construct the logger, in that fixed order, aborting on the
first failure. -/
def newRuntimeContext (e : Env) (flags : CommonFlags) (fs : Fs) :
    Except BootErr RtxData × Fs :=
  match discoverPaths e appName flags.configPath fs with
  | .error er => (.error er, fs)
  | .ok paths =>
    match loadOrInitConfig e paths flags fs with
    | (.error er, fs1) => (.error er, fs1)
    | (.ok cfg, fs1) =>
      match applyPathOverrides e paths cfg with
      | .error er => (.error er, fs1)
      | .ok effPaths =>
        match ensureDirectories effPaths flags fs1 with
        | (.error er, fs2) => (.error er, fs2)
        | (.ok _, fs2) =>
          match resolveLogSettings e flags cfg fs2 with
          | (.error er, fs3) => (.error er, fs3)
          | (.ok ls, fs3) =>
            (.ok { common := flags, paths := effPaths, config := cfg,
                   logger := configureLogger ls, logSettings := ls }, fs3)

/-- ValidateColor from flags.go. -/
def validateColor (c : CommonFlags) : Bool :=
  c.color = "" ∨ c.color = "auto" ∨ c.color = "always" ∨ c.color = "never"

/-- The persistent pre-run hook from root.go: skip when a context is already
installed, merge the changed timeout and parallel flags, reject conflicting
output formats, validate the color policy, and only then build the runtime
context. -/
def persistentPreRunE (e : Env) (inCtx : Bool) (flags : CommonFlags)
    (timeoutChanged : Bool) (timeoutFlag : Int)
    (parallelChanged : Bool) (parallelFlag : Int) (fs : Fs) :
    Except BootErr (Option RtxData) × Fs :=
  if inCtx then (.ok none, fs)
  else
    let flags :=
      if timeoutChanged then { flags with timeoutSeconds := some timeoutFlag } else flags
    let flags :=
      if parallelChanged then { flags with parallelism := some parallelFlag } else flags
    if flags.json ∧ flags.yaml then (.error .conflictingOutputFormat, fs)
    else if ¬ validateColor flags then (.error .invalidColorPolicy, fs)
    else
      match newRuntimeContext e flags fs with
      | (.ok r, fs1) => (.ok (some r), fs1)
      | (.error er, fs1) => (.error er, fs1)

/-! ## The level-resolution precedence as claim C1 words it -/

/-- The effective log level exactly as claim C1 states the precedence: trace
flag, then debug flag, then verbosity at least two (trace), then verbosity
one (debug), then quiet clamping the configured level to at most error
(never raising it), then the parsed configured level. -/
def claimLevel (flags : CommonFlags) (cfg : AppConfig) : Level :=
  if flags.trace then .trace
  else if flags.debug then .debug
  else if 2 ≤ flags.verbose then .trace
  else if flags.verbose = 1 then .debug
  else if flags.quiet then
    (if (parseLevel cfg.logging.level).toNat ≤ Level.error.toNat
     then parseLevel cfg.logging.level else Level.error)
  else parseLevel cfg.logging.level

/-! ## Auxiliary operations and concrete instances used by the statements -/

/-- Close, then close again (propagating a first failure), the double-close
pattern of claim C7. -/
def closeTwice (c : Option RtxData) : Except String (Option RtxData) :=
  match rtxClose c with
  | .ok c1 => rtxClose c1
  | .error er => .error er

/-- The filesystem with a default configuration file guaranteed present at
the given path: unchanged when any entry exists there already (claim C3's
pre-existing identical file). -/
def withDefaultConfigAt (p : String) (fs : Fs) : Fs :=
  if statExists p fs then fs
  else { fs with files := (p, defaultFileDoc) :: fs.files }

/-- A sample environment: a home directory and nothing else. -/
def sampleEnv : Env := { vars := [("HOME", "/home/u")] }

/-- The default flag set (every flag at its zero value, color auto). -/
def sampleFlags : CommonFlags := {}

/-- The default flag set with dry-run enabled. -/
def dryFlags : CommonFlags := { dryRun := true }

/-- The default flag set with quiet enabled and the auto color policy, on
which claim C8 fails. -/
def c8flags : CommonFlags := { quiet := true, color := "auto" }

/-- An environment whose standard error stream is an interactive terminal. -/
def c8env : Env := { vars := [("HOME", "/home/u")], stderrTerminal := true }

/-- The log settings the sample resolution produces. -/
def c8settings : LogSettings :=
  { level := .error, diagnostics := false, colorize := true,
    writers := [Sink.discard], fileHandle := none }

/-- A filesystem holding a configuration file that points logging at a log
file, so that the bootstrap produces a context owning a file handle. -/
def c7fs : Fs :=
  { files := [("/home/u/.config/go-cli/config.toml",
      { loggingFile := some "/home/u/app.log" })] }

/-- The runtime context built from `c7fs`: it owns an open log-file handle. -/
def c7ctx : Option RtxData :=
  match (newRuntimeContext sampleEnv sampleFlags c7fs).1 with
  | .ok r => some r
  | .error _ => none

/-- A bare runtime context owning an open file handle (for the amended C7
witness). -/
def c7open : RtxData :=
  { logger := { settings := { fileHandle := some { path := "/home/u/app.log" } } } }

/-- The first bootstrap run of claim C4's witness. -/
def c4run : Except BootErr RtxData × Fs := newRuntimeContext sampleEnv sampleFlags emptyFs

/-- The context produced by the first bootstrap run of claim C4's witness. -/
def c4rtx : RtxData :=
  match c4run.1 with
  | .ok r => r
  | .error _ => {}

/-- The dry bootstrap run of claim C3's witness. -/
def c3run : Except BootErr RtxData × Fs := newRuntimeContext sampleEnv dryFlags emptyFs

/-- The context produced by the dry bootstrap run of claim C3's witness. -/
def c3rtx : RtxData :=
  match c3run.1 with
  | .ok r => r
  | .error _ => {}

/-- Sample paths for the C6 witness. -/
def c6paths : AppPaths := { configFile := "/cfg/config.toml", dataDir := "/d", stateDir := "/s" }

/-- A configuration overriding the data directory with a tilde path. -/
def c6cfg : AppConfig := { paths := { dataDir := "~/data" } }

/-- The overridden paths the C6 witness expects. -/
def c6out : AppPaths := { configFile := "/cfg/config.toml", dataDir := "/home/u/data", stateDir := "/s" }

/-- An environment demonstrating that environment expansion happens before
tilde substitution (a variable expanding to a tilde is substituted). -/
def c5env : Env := { vars := [("T", "~"), ("HOME", "/home/u")] }

/-- The log settings the C1 witness resolution produces. -/
def c1settings : LogSettings :=
  { level := .info, diagnostics := false, colorize := false,
    writers := [Sink.stderr], fileHandle := none }

/-- The load of claim C2's witness: default flags, sample paths, empty
filesystem. -/
def c2run : Except BootErr AppConfig × Fs :=
  loadOrInitConfig sampleEnv c6paths sampleFlags emptyFs

/-- The configuration produced by claim C2's witness load. -/
def c2cfg : AppConfig :=
  match c2run.1 with
  | .ok c => c
  | .error _ => {}

/-- The filesystem state after claim C2's witness load. -/
def c2fs : Fs := c2run.2

/-- The non-dry bootstrap of claim C3's witness, against the world with the
default config file guaranteed present. -/
def c3run2 : Except BootErr RtxData × Fs :=
  newRuntimeContext sampleEnv { dryFlags with dryRun := false }
    (withDefaultConfigAt c3rtx.paths.configFile emptyFs)

/-- The context produced by claim C3's witness non-dry bootstrap. -/
def c3snd : RtxData :=
  match c3run2.1 with
  | .ok r => r
  | .error _ => {}

/-- The filesystem state after claim C3's witness non-dry bootstrap. -/
def c3sndFs : Fs := c3run2.2

/-! ## Theorems -/

/-- C10: every Logger produced by ConfigureLogger has at least one output
sink: an empty supplied writer list is replaced by the discard sink at
construction, and an emission at an enabled severity never iterates over an
empty sink list. -/
theorem c10_logger_never_sinkless (s : LogSettings) (lvl : Level) (msg now : String) :
    (configureLogger s).settings.writers ≠ [] ∧
    (s.writers = [] → (configureLogger s).settings.writers = [Sink.discard]) ∧
    (lvl.toNat ≤ (configureLogger s).settings.level.toNat →
      loggerLog (configureLogger s) lvl msg now ≠ []) := by
  unfold configureLogger loggerLog
  by_cases h : s.writers = [] <;> simp [h, Nat.not_lt, List.map_eq_nil_iff]

/-- C10 witness: the empty settings get the discard sink substituted, and an
error-level emission on the resulting logger is non-empty. -/
theorem c10_witness :
    ({} : LogSettings).writers = [] ∧
    (configureLogger {}).settings.writers = [Sink.discard] ∧
    loggerLog (configureLogger {}) Level.error "m" "t" ≠ [] :=
  ⟨rfl, (c10_logger_never_sinkless {} Level.error "m" "t").2.1 rfl,
    (c10_logger_never_sinkless {} Level.error "m" "t").2.2 (by decide)⟩

/-- C6: ApplyPathOverrides is a pure function of the resolved paths and the
configuration: each of dataDir and stateDir is replaced by the expansion of
a non-empty configured override and retained otherwise, configFile is never
changed, and the call fails exactly when the expansion of a non-empty
override fails. -/
theorem c6_apply_path_overrides (e : Env) (paths : AppPaths) (cfg : AppConfig) :
    (∀ out, applyPathOverrides e paths cfg = .ok out →
      out.configFile = paths.configFile ∧
      (cfg.paths.dataDir = "" → out.dataDir = paths.dataDir) ∧
      (cfg.paths.dataDir ≠ "" → expandPath e cfg.paths.dataDir = .ok out.dataDir) ∧
      (cfg.paths.stateDir = "" → out.stateDir = paths.stateDir) ∧
      (cfg.paths.stateDir ≠ "" → expandPath e cfg.paths.stateDir = .ok out.stateDir)) ∧
    (isErr (applyPathOverrides e paths cfg) = true ↔
      (cfg.paths.dataDir ≠ "" ∧ isErr (expandPath e cfg.paths.dataDir) = true) ∨
      (cfg.paths.stateDir ≠ "" ∧ isErr (expandPath e cfg.paths.stateDir) = true)) := by
  unfold applyPathOverrides
  by_cases hd : cfg.paths.dataDir = "" <;> by_cases hs : cfg.paths.stateDir = "" <;>
    simp only [hd, hs, if_pos, if_neg, ne_eq, not_true_eq_false, not_false_eq_true,
      ite_true, ite_false] <;>
    cases hde : expandPath e cfg.paths.dataDir <;>
    cases hse : expandPath e cfg.paths.stateDir <;>
    simp_all [isErr, Bind.bind, Except.bind, pure, Except.pure]

/-- C6 witness: a tilde override for the data directory is expanded while
the configuration file and the untouched state directory are retained. -/
theorem c6_witness :
    applyPathOverrides sampleEnv c6paths c6cfg = .ok c6out ∧
    c6out.configFile = c6paths.configFile ∧ c6out.stateDir = c6paths.stateDir :=
  ⟨by decide, ((c6_apply_path_overrides sampleEnv c6paths c6cfg).1 c6out (by decide)).1,
    (((c6_apply_path_overrides sampleEnv c6paths c6cfg).1 c6out (by decide)).2.2.2.1 (by decide))⟩

/-- C9: when both the json and yaml flags are set, the persistent pre-run
hook fails with the conflicting-output-format condition and the filesystem
is returned untouched: the check precedes path discovery, config loading,
directory creation and log-file opening. -/
theorem c9_conflicting_output_format (e : Env) (flags : CommonFlags)
    (tc : Bool) (tf : Int) (pc : Bool) (pf : Int) (fs : Fs)
    (hj : flags.json = true) (hy : flags.yaml = true) :
    persistentPreRunE e false flags tc tf pc pf fs = (.error .conflictingOutputFormat, fs) := by
  unfold persistentPreRunE
  cases tc <;> cases pc <;> simp [hj, hy]

/-- C9 witness: the conflict on the default flag set with both output
formats requested, against the empty filesystem. -/
theorem c9_witness :
    persistentPreRunE sampleEnv false { json := true, yaml := true } false 0 false 0 emptyFs =
      (.error .conflictingOutputFormat, emptyFs) :=
  c9_conflicting_output_format sampleEnv { json := true, yaml := true } false 0 false 0 emptyFs
    rfl rfl

/-- C8 counterexample: with quiet set, the color flag auto, noColor unset
and standard error an interactive terminal, the resolved settings have the
discard target as the only sink and are nevertheless colorized — the claim
that auto must not colorize under quiet (where the primary sink is a
discard target) is false of the code, which tests whether standard error is
a terminal regardless of the sink selection. -/
theorem c8_counterexample :
    c8flags.quiet = true ∧ c8flags.noColor = false ∧ c8flags.color = "auto" ∧
    (resolveLogSettings c8env c8flags defaultConfig emptyFs).1 = .ok c8settings ∧
    c8settings.writers = [Sink.discard] ∧ c8settings.colorize = true := by
  decide

/-- Whenever ResolveLogSettings succeeds, the returned settings carry the
switch-resolved level, the policy-resolved colorization and the diagnostics
flag, whichever branch produced them. -/
theorem resolve_ok_settings (e : Env) (flags : CommonFlags) (cfg : AppConfig)
    (fs fs1 : Fs) (s : LogSettings)
    (h : resolveLogSettings e flags cfg fs = (.ok s, fs1)) :
    s.level = resolvedLevel flags cfg ∧
    s.colorize = shouldColorize (resolvedColorPolicy flags) e.stderrTerminal ∧
    s.diagnostics = flags.diagnostics := by
  unfold resolveLogSettings at h
  by_cases hc : (cfg.logging.file ≠ "" ∧ ¬ flags.dryRun = true)
  · rw [if_pos hc] at h
    by_cases hd : (cfg.logging.file ∈ fs.dirs ∨ cfg.logging.file ∈ e.badLogPaths)
    · rw [if_pos hd] at h
      exact absurd h (by simp)
    · rw [if_neg hd] at h
      simp only [Prod.mk.injEq, Except.ok.injEq] at h
      obtain ⟨hs, -⟩ := h
      subst hs
      exact ⟨rfl, rfl, rfl⟩
  · rw [if_neg hc] at h
    simp only [Prod.mk.injEq, Except.ok.injEq] at h
    obtain ⟨hs, -⟩ := h
    subst hs
    exact ⟨rfl, rfl, rfl⟩

/-- C8 amended: noColor forces no colorization; otherwise the color flag is
honored with always and never absolute and auto colorizing exactly when the
standard error stream is an interactive terminal, regardless of quiet. -/
theorem c8_color_resolution (e : Env) (flags : CommonFlags) (cfg : AppConfig)
    (fs fs1 : Fs) (s : LogSettings)
    (h : resolveLogSettings e flags cfg fs = (.ok s, fs1)) :
    (flags.noColor = true → s.colorize = false) ∧
    (flags.noColor = false → flags.color = "always" → s.colorize = true) ∧
    (flags.noColor = false → flags.color = "never" → s.colorize = false) ∧
    (flags.noColor = false → flags.color = "auto" → s.colorize = e.stderrTerminal) := by
  obtain ⟨-, hcol, -⟩ := resolve_ok_settings e flags cfg fs fs1 s h
  refine ⟨?_, ?_, ?_, ?_⟩
  · intro hnc; rw [hcol]; simp [resolvedColorPolicy, shouldColorize, hnc]
  · intro hnc hcv; rw [hcol]; simp [resolvedColorPolicy, shouldColorize, hnc, hcv]
  · intro hnc hcv; rw [hcol]; simp [resolvedColorPolicy, shouldColorize, hnc, hcv]
  · intro hnc hcv; rw [hcol]; simp [resolvedColorPolicy, shouldColorize, hnc, hcv]

/-- C8 witness: on the default flags (auto policy, no quiet) with a
non-terminal standard error, auto resolves to no colorization. -/
theorem c8_witness :
    resolveLogSettings sampleEnv sampleFlags defaultConfig emptyFs = (.ok c1settings, emptyFs) ∧
    c1settings.colorize = sampleEnv.stderrTerminal :=
  ⟨by decide,
    (c8_color_resolution sampleEnv sampleFlags defaultConfig emptyFs emptyFs c1settings
      (by decide)).2.2.2 rfl rfl⟩

/-- C1: the effective level computed by ResolveLogSettings follows the
claimed precedence (trace flag, debug flag, verbosity two, verbosity one,
quiet clamping to at most error, then the configured string parsed
case-insensitively with unrecognized values defaulting to info); in
particular trace wins regardless of quiet, and quiet with a configured
debug level clamps to error. -/
theorem c1_level_precedence (e : Env) (flags : CommonFlags) (cfg : AppConfig)
    (fs fs1 : Fs) (s : LogSettings)
    (h : resolveLogSettings e flags cfg fs = (.ok s, fs1)) :
    s.level = claimLevel flags cfg ∧
    (flags.trace = true → s.level = .trace) ∧
    (flags.trace = false → flags.debug = false → flags.verbose = 0 → flags.quiet = true →
      cfg.logging.level = "debug" → s.level = .error) ∧
    parseLevel "TrAcE" = .trace ∧ parseLevel "bogus" = .info ∧ parseLevel "" = .info := by
  obtain ⟨hlev, -, -⟩ := resolve_ok_settings e flags cfg fs fs1 s h
  rw [hlev]
  refine ⟨?_, ?_, ?_, by decide, by decide, by decide⟩
  · unfold resolvedLevel claimLevel
    by_cases ht : flags.trace <;> simp [ht]
    by_cases hd : flags.debug <;> simp [hd]
    by_cases hv2 : 2 ≤ flags.verbose <;> simp [hv2]
    by_cases hv1 : flags.verbose = 1 <;> simp [hv1]
    by_cases hq : flags.quiet <;> simp [hq]
    cases parseLevel cfg.logging.level <;> simp [Level.toNat]
  · intro ht; simp [resolvedLevel, ht]
  · intro ht hd hv hq hl
    have hpd : parseLevel "debug" = .debug := by decide
    simp [resolvedLevel, ht, hd, hv, hq, hl, hpd, Level.toNat]

/-- C1 witness: the default flags against the default configuration resolve
to the info level, matching the claimed precedence function. -/
theorem c1_witness :
    resolveLogSettings sampleEnv sampleFlags defaultConfig emptyFs = (.ok c1settings, emptyFs) ∧
    c1settings.level = claimLevel sampleFlags defaultConfig :=
  ⟨by decide,
    (c1_level_precedence sampleEnv sampleFlags defaultConfig emptyFs emptyFs c1settings
      (by decide)).1⟩

/-- C5: expandPath expands environment references first (a variable whose
value is a tilde is then home-substituted), substitutes the home directory
for exactly tilde or a tilde-slash prefix, leaves a tilde-user form
untouched up to cleaning, cleans the result, and maps the empty string to
itself with no error; the claimed concrete cases hold. -/
theorem c5_expand_path (e : Env) (p hm : String) :
    expandPath e "" = .ok "" ∧
    expandPath c5env "~/logs/app.log" = .ok "/home/u/logs/app.log" ∧
    expandPath c5env "$HOME/x" = .ok "/home/u/x" ∧
    expandPath c5env "$T" = .ok "/home/u" ∧
    (p ≠ "" → strStartsWith (osExpandEnv e p) "~" = false →
      expandPath e p = .ok (filepathClean (osExpandEnv e p))) ∧
    (p ≠ "" → userHomeDir e = some hm →
      strStartsWith (osExpandEnv e p) "~" = true → osExpandEnv e p ≠ "~" →
      strStartsWith (osExpandEnv e p) "~/" = false →
      expandPath e p = .ok (filepathClean (osExpandEnv e p))) := by
  refine ⟨rfl, by decide, by decide, by decide, ?_, ?_⟩
  · intro hp hns
    unfold expandPath
    rw [if_neg hp]
    simp [hns]
  · intro hp hhm hs h1 h2
    unfold expandPath
    rw [if_neg hp]
    simp [hs, hhm, h1, h2]

/-- C5 witness: the structural cases applied at concrete inputs — a path
with no tilde after expansion, and a tilde-user path left untouched. -/
theorem c5_witness :
    expandPath c5env "/a/b" = .ok "/a/b" ∧ expandPath c5env "~user/z" = .ok "~user/z" :=
  ⟨(c5_expand_path c5env "/a/b" "/home/u").2.2.2.2.1 (by decide) (by decide),
    (c5_expand_path c5env "~user/z" "/home/u").2.2.2.2.2 (by decide) (by decide) (by decide)
      (by decide) (by decide)⟩

/-- C7 counterexample: a runtime context built by the bootstrap from a
configuration that names a log file owns an open file handle; its first
Close succeeds, but a second Close returns the already-closed error from
the underlying file, so closing an already-closed context is not always an
error-free no-op. -/
theorem c7_counterexample :
    c7ctx ≠ none ∧ isErr (rtxClose c7ctx) = false ∧ isErr (closeTwice c7ctx) = true := by
  decide

/-- C7 amended: closing a nil context is a safe no-op, closing twice is a
safe no-op returning no error whenever the context owns no log-file handle,
and on a context owning an open handle the first Close succeeds while the
second returns the file's already-closed error. -/
theorem c7_close_amended (r : RtxData) (f : OSFile) :
    rtxClose none = .ok none ∧
    (r.logger.settings.fileHandle = none →
      rtxClose (some r) = .ok (some r) ∧ closeTwice (some r) = .ok (some r)) ∧
    (r.logger.settings.fileHandle = some f → f.closed = false →
      isErr (rtxClose (some r)) = false ∧ isErr (closeTwice (some r)) = true) := by
  refine ⟨rfl, ?_, ?_⟩
  · intro hn
    have h1 : rtxClose (some r) = .ok (some r) := by
      simp [rtxClose, loggerClose, hn]
    refine ⟨h1, ?_⟩
    unfold closeTwice
    rw [h1]
    exact h1
  · intro hf hc
    constructor
    · simp [rtxClose, loggerClose, osFileClose, hf, hc, isErr]
    · simp [closeTwice, rtxClose, loggerClose, osFileClose, hf, hc, isErr]

/-- C7 witness: the amended statement applied to a concrete context owning
an open handle. -/
theorem c7_witness :
    c7open.logger.settings.fileHandle = some { path := "/home/u/app.log", closed := false } ∧
    (isErr (rtxClose (some c7open)) = false ∧ isErr (closeTwice (some c7open)) = true) :=
  ⟨rfl, (c7_close_amended c7open { path := "/home/u/app.log", closed := false }).2.2 rfl rfl⟩

/-- fileExistsAt only inspects the files and log files of the state. -/
theorem fileExistsAt_congr (p : String) (fs fs2 : Fs)
    (h1 : fs2.files = fs.files) (h2 : fs2.logFiles = fs.logFiles) :
    fileExistsAt p fs2 = fileExistsAt p fs := by
  unfold fileExistsAt
  rw [h1, h2]

/-- mkdirAll frame: files and log files are untouched, directories only
grow, and the only possible addition is the requested directory, added only
when no regular file occupies it. -/
theorem mkdirAll_frame (d : String) (fs : Fs) (res : Except BootErr Unit) (fs1 : Fs)
    (h : mkdirAll d fs = (res, fs1)) :
    fs1.files = fs.files ∧ fs1.logFiles = fs.logFiles ∧
    (∀ q, q ∈ fs.dirs → q ∈ fs1.dirs) ∧
    (∀ q, q ∈ fs1.dirs → q ∈ fs.dirs ∨ (q = d ∧ fileExistsAt d fs = false)) := by
  unfold mkdirAll at h
  by_cases h1 : d ∈ fs.dirs
  · rw [if_pos h1] at h
    simp only [Prod.mk.injEq] at h
    obtain ⟨-, hfs⟩ := h
    subst hfs
    exact ⟨rfl, rfl, fun q hq => hq, fun q hq => .inl hq⟩
  · rw [if_neg h1] at h
    by_cases h2 : fileExistsAt d fs = true
    · rw [if_pos h2] at h
      simp only [Prod.mk.injEq] at h
      obtain ⟨-, hfs⟩ := h
      subst hfs
      exact ⟨rfl, rfl, fun q hq => hq, fun q hq => .inl hq⟩
    · rw [if_neg h2] at h
      simp only [Prod.mk.injEq] at h
      obtain ⟨-, hfs⟩ := h
      subst hfs
      refine ⟨rfl, rfl, fun q hq => List.mem_cons_of_mem d hq, fun q hq => ?_⟩
      rcases List.mem_cons.mp hq with hq | hq
      · exact .inr ⟨hq, Bool.not_eq_true _ ▸ (by simpa using h2)⟩
      · exact .inl hq

/-- A directory that already exists makes mkdirAll a no-op. -/
theorem mkdirAll_mem_noop (d : String) (fs : Fs) (h1 : d ∈ fs.dirs) :
    mkdirAll d fs = (.ok (), fs) := by
  unfold mkdirAll
  rw [if_pos h1]

/-- A successful mkdirAll leaves the directory present. -/
theorem mkdirAll_ok_mem (d : String) (fs : Fs) (u : Unit) (fs1 : Fs)
    (h : mkdirAll d fs = (.ok u, fs1)) : d ∈ fs1.dirs := by
  unfold mkdirAll at h
  by_cases h1 : d ∈ fs.dirs
  · rw [if_pos h1] at h
    simp only [Prod.mk.injEq] at h
    exact h.2 ▸ h1
  · rw [if_neg h1] at h
    by_cases h2 : fileExistsAt d fs = true
    · rw [if_pos h2] at h
      exact absurd h (by simp)
    · rw [if_neg h2] at h
      simp only [Prod.mk.injEq] at h
      exact h.2 ▸ List.mem_cons_self d fs.dirs

/-- writeDefaultConfig shape on success: the parsed template is prepended to
the files, log files are untouched, directories only grow by the config
parent directory (only when free of files), and the config path itself is
not a directory afterwards. -/
theorem writeDefaultConfig_ok (p : String) (fs : Fs) (u : Unit) (fs1 : Fs)
    (h : writeDefaultConfig p fs = (.ok u, fs1)) :
    fs1.files = (p, defaultFileDoc) :: fs.files ∧ fs1.logFiles = fs.logFiles ∧
    (∀ q, q ∈ fs.dirs → q ∈ fs1.dirs) ∧
    (∀ q, q ∈ fs1.dirs → q ∈ fs.dirs ∨ (q = filepathDir p ∧ fileExistsAt q fs = false)) ∧
    p ∉ fs1.dirs := by
  unfold writeDefaultConfig at h
  split at h
  case h_1 er fsm hm => exact absurd h (by simp)
  case h_2 v fsm hm =>
    by_cases hp : p ∈ fsm.dirs
    · rw [if_pos hp] at h
      exact absurd h (by simp)
    · rw [if_neg hp] at h
      simp only [Prod.mk.injEq] at h
      obtain ⟨-, hfs⟩ := h
      subst hfs
      obtain ⟨hf, hl, hmono, hadd⟩ := mkdirAll_frame (filepathDir p) fs (.ok v) fsm hm
      refine ⟨by rw [hf], hl, hmono, ?_, hp⟩
      intro q hq
      rcases hadd q hq with hq | ⟨hq1, hq2⟩
      · exact .inl hq
      · exact .inr ⟨hq1, hq1 ▸ hq2⟩

/-- EnsureDirectories frame: files and log files are untouched, directories
only grow, and every addition is a path free of regular files. -/
theorem ensure_frame (paths : AppPaths) (flags : CommonFlags) (fs : Fs)
    (res : Except BootErr Unit) (fs1 : Fs)
    (h : ensureDirectories paths flags fs = (res, fs1)) :
    fs1.files = fs.files ∧ fs1.logFiles = fs.logFiles ∧
    (∀ q, q ∈ fs.dirs → q ∈ fs1.dirs) ∧
    (∀ q, q ∈ fs1.dirs → q ∈ fs.dirs ∨ fileExistsAt q fs = false) := by
  unfold ensureDirectories at h
  by_cases hd : flags.dryRun = true
  · rw [if_pos hd] at h
    simp only [Prod.mk.injEq] at h
    obtain ⟨-, hfs⟩ := h
    subst hfs
    exact ⟨rfl, rfl, fun q hq => hq, fun q hq => .inl hq⟩
  · rw [if_neg hd] at h
    split at h
    next er fsm hm =>
      simp only [Prod.mk.injEq] at h
      obtain ⟨-, hfs⟩ := h
      subst hfs
      by_cases hdd : paths.dataDir = ""
      · rw [if_pos hdd] at hm
        simp only [Prod.mk.injEq] at hm
        obtain ⟨-, hfs2⟩ := hm
        subst hfs2
        exact ⟨rfl, rfl, fun q hq => hq, fun q hq => .inl hq⟩
      · rw [if_neg hdd] at hm
        obtain ⟨hf, hl, hmono, hadd⟩ := mkdirAll_frame paths.dataDir fs _ fsm hm
        refine ⟨hf, hl, hmono, fun q hq => ?_⟩
        rcases hadd q hq with hq | ⟨hq1, hq2⟩
        · exact .inl hq
        · exact .inr (hq1 ▸ hq2)
    next v fsm hm =>
      split at h
      all_goals
        simp only [Prod.mk.injEq] at h
        obtain ⟨-, hfs⟩ := h
        subst hfs
      all_goals rename_i v2 fs2 hm2
      all_goals {
        have step1 : fsm.files = fs.files ∧ fsm.logFiles = fs.logFiles ∧
            (∀ q, q ∈ fs.dirs → q ∈ fsm.dirs) ∧
            (∀ q, q ∈ fsm.dirs → q ∈ fs.dirs ∨ fileExistsAt q fs = false) := by
          by_cases hdd : paths.dataDir = ""
          · rw [if_pos hdd] at hm
            simp only [Prod.mk.injEq] at hm
            obtain ⟨-, hfs2⟩ := hm
            subst hfs2
            exact ⟨rfl, rfl, fun q hq => hq, fun q hq => .inl hq⟩
          · rw [if_neg hdd] at hm
            obtain ⟨hf, hl, hmono, hadd⟩ := mkdirAll_frame paths.dataDir fs _ fsm hm
            refine ⟨hf, hl, hmono, fun q hq => ?_⟩
            rcases hadd q hq with hq | ⟨hq1, hq2⟩
            · exact .inl hq
            · exact .inr (hq1 ▸ hq2)
        obtain ⟨s1f, s1l, s1mono, s1add⟩ := step1
        have step2 : fs2.files = fsm.files ∧ fs2.logFiles = fsm.logFiles ∧
            (∀ q, q ∈ fsm.dirs → q ∈ fs2.dirs) ∧
            (∀ q, q ∈ fs2.dirs → q ∈ fsm.dirs ∨ fileExistsAt q fsm = false) := by
          by_cases hss : paths.stateDir = ""
          · rw [if_pos hss] at hm2
            simp only [Prod.mk.injEq] at hm2
            obtain ⟨-, hfs2⟩ := hm2
            subst hfs2
            exact ⟨rfl, rfl, fun q hq => hq, fun q hq => .inl hq⟩
          · rw [if_neg hss] at hm2
            obtain ⟨hf, hl, hmono, hadd⟩ := mkdirAll_frame paths.stateDir fsm _ fs2 hm2
            refine ⟨hf, hl, hmono, fun q hq => ?_⟩
            rcases hadd q hq with hq | ⟨hq1, hq2⟩
            · exact .inl hq
            · exact .inr (hq1 ▸ hq2)
        obtain ⟨s2f, s2l, s2mono, s2add⟩ := step2
        refine ⟨by rw [s2f, s1f], by rw [s2l, s1l], fun q hq => s2mono q (s1mono q hq), fun q hq => ?_⟩
        rcases s2add q hq with hq | hq
        · rcases s1add q hq with hq | hq
          · exact .inl hq
          · exact .inr hq
        · rw [fileExistsAt_congr q fs fsm s1f s1l] at hq
          exact .inr hq
      }

/-- A successful non-dry EnsureDirectories leaves each requested non-empty
directory present. -/
theorem ensure_ok_mem (paths : AppPaths) (flags : CommonFlags) (fs : Fs) (u : Unit) (fs1 : Fs)
    (hd : flags.dryRun = false)
    (h : ensureDirectories paths flags fs = (.ok u, fs1)) :
    (paths.dataDir ≠ "" → paths.dataDir ∈ fs1.dirs) ∧
    (paths.stateDir ≠ "" → paths.stateDir ∈ fs1.dirs) := by
  unfold ensureDirectories at h
  rw [if_neg (by simp [hd])] at h
  split at h
  next er fsm hm => exact absurd h (by simp)
  next v fsm hm =>
    split at h
    next er fs2 hm2 => exact absurd h (by simp)
    next v2 fs2 hm2 =>
      simp only [Prod.mk.injEq] at h
      obtain ⟨-, hfs⟩ := h
      subst hfs
      constructor
      · intro hdd
        rw [if_neg hdd] at hm
        have h1 := mkdirAll_ok_mem paths.dataDir fs v fsm hm
        by_cases hss : paths.stateDir = ""
        · rw [if_pos hss] at hm2
          simp only [Prod.mk.injEq] at hm2
          exact hm2.2 ▸ h1
        · rw [if_neg hss] at hm2
          exact (mkdirAll_frame paths.stateDir fsm _ fs2 hm2).2.2.1 _ h1
      · intro hss
        rw [if_neg hss] at hm2
        exact mkdirAll_ok_mem paths.stateDir fsm v2 fs2 hm2

/-- EnsureDirectories is a no-op when every requested directory is empty or
already present. -/
theorem ensure_noop (paths : AppPaths) (flags : CommonFlags) (fs : Fs)
    (h1 : paths.dataDir = "" ∨ paths.dataDir ∈ fs.dirs)
    (h2 : paths.stateDir = "" ∨ paths.stateDir ∈ fs.dirs) :
    ensureDirectories paths flags fs = (.ok (), fs) := by
  unfold ensureDirectories
  by_cases hd : flags.dryRun = true
  · rw [if_pos hd]
  · rw [if_neg hd]
    have e1 : (if paths.dataDir = "" then ((.ok () : Except BootErr Unit), fs)
        else mkdirAll paths.dataDir fs) = (.ok (), fs) := by
      rcases h1 with h1 | h1
      · rw [if_pos h1]
      · by_cases hdd : paths.dataDir = ""
        · rw [if_pos hdd]
        · rw [if_neg hdd]
          exact mkdirAll_mem_noop _ fs h1
    have e2 : (if paths.stateDir = "" then ((.ok ()  : Except BootErr Unit), fs)
        else mkdirAll paths.stateDir fs) = (.ok (), fs) := by
      rcases h2 with h2 | h2
      · rw [if_pos h2]
      · by_cases hss : paths.stateDir = ""
        · rw [if_pos hss]
        · rw [if_neg hss]
          exact mkdirAll_mem_noop _ fs h2
    simp only [e1, e2]

/-- ResolveLogSettings frame: files and directories are untouched and log
files only grow (by at most the configured log file). -/
theorem resolve_frame (e : Env) (flags : CommonFlags) (cfg : AppConfig) (fs : Fs)
    (res : Except BootErr LogSettings) (fs1 : Fs)
    (h : resolveLogSettings e flags cfg fs = (res, fs1)) :
    fs1.files = fs.files ∧ fs1.dirs = fs.dirs ∧
    (∀ q, q ∈ fs.logFiles → q ∈ fs1.logFiles) := by
  unfold resolveLogSettings at h
  by_cases hc : (cfg.logging.file ≠ "" ∧ ¬ flags.dryRun = true)
  · rw [if_pos hc] at h
    by_cases hb : (cfg.logging.file ∈ fs.dirs ∨ cfg.logging.file ∈ e.badLogPaths)
    · rw [if_pos hb] at h
      simp only [Prod.mk.injEq] at h
      obtain ⟨-, hfs⟩ := h
      subst hfs
      exact ⟨rfl, rfl, fun q hq => hq⟩
    · rw [if_neg hb] at h
      simp only [Prod.mk.injEq] at h
      obtain ⟨-, hfs⟩ := h
      subst hfs
      by_cases he : fileExistsAt cfg.logging.file fs = true
      · rw [if_pos he]
        exact ⟨rfl, rfl, fun q hq => hq⟩
      · rw [if_neg he]
        exact ⟨rfl, rfl, fun q hq => List.mem_cons_of_mem _ hq⟩
  · rw [if_neg hc] at h
    simp only [Prod.mk.injEq] at h
    obtain ⟨-, hfs⟩ := h
    subst hfs
    exact ⟨rfl, rfl, fun q hq => hq⟩

/-- Running ResolveLogSettings again on its own output state reproduces the
same settings and leaves the state unchanged. -/
theorem resolve_again (e : Env) (flags : CommonFlags) (cfg : AppConfig) (fs : Fs)
    (ls : LogSettings) (fs1 : Fs)
    (h : resolveLogSettings e flags cfg fs = (.ok ls, fs1)) :
    resolveLogSettings e flags cfg fs1 = (.ok ls, fs1) := by
  unfold resolveLogSettings at h ⊢
  by_cases hc : (cfg.logging.file ≠ "" ∧ ¬ flags.dryRun = true)
  · rw [if_pos hc] at h ⊢
    by_cases hb : (cfg.logging.file ∈ fs.dirs ∨ cfg.logging.file ∈ e.badLogPaths)
    · rw [if_pos hb] at h
      exact absurd h (by simp)
    · rw [if_neg hb] at h
      by_cases he : fileExistsAt cfg.logging.file fs = true
      · rw [if_pos he] at h
        simp only [Prod.mk.injEq] at h
        obtain ⟨hres, hfs⟩ := h
        subst hfs
        rw [if_neg hb, if_pos he]
        simp only [Prod.mk.injEq]
        exact ⟨hres, trivial⟩
      · rw [if_neg he] at h
        simp only [Prod.mk.injEq] at h
        obtain ⟨hres, hfs⟩ := h
        subst hfs
        have hb1 : ¬ (cfg.logging.file ∈
            ({ fs with logFiles := cfg.logging.file :: fs.logFiles } : Fs).dirs ∨
            cfg.logging.file ∈ e.badLogPaths) := hb
        rw [if_neg hb1]
        have he1 : fileExistsAt cfg.logging.file
            ({ fs with logFiles := cfg.logging.file :: fs.logFiles } : Fs) = true := by
          unfold fileExistsAt
          simp
        rw [if_pos he1]
        simp only [Prod.mk.injEq]
        exact ⟨hres, trivial⟩
  · rw [if_neg hc] at h ⊢
    simp only [Prod.mk.injEq] at h
    obtain ⟨hres, hfs⟩ := h
    subst hfs
    simp only [Prod.mk.injEq]
    exact ⟨hres, trivial⟩

/-- A successful config read implies the stat succeeds. -/
theorem read_doc_stat (p : String) (fs : Fs) (d : FileDoc)
    (h : readConfigFile p fs = .doc d) : statExists p fs = true := by
  unfold readConfigFile at h
  unfold statExists fileExistsAt
  cases hl : fs.files.lookup p with
  | some d2 => simp [hl]
  | none =>
    rw [hl] at h
    by_cases h1 : p ∈ fs.logFiles
    · simp [h1]
    · rw [if_neg h1] at h
      by_cases h2 : p ∈ fs.dirs
      · rw [if_pos h2] at h
        exact absurd h (by simp)
      · rw [if_neg h2] at h
        exact absurd h (by simp)

/-- What a successful config read can be: a stored file, or the empty parse
of a file that exists only as a log file. -/
theorem read_doc_cases (p : String) (fs : Fs) (d : FileDoc)
    (h : readConfigFile p fs = .doc d) :
    fs.files.lookup p = some d ∨
      (fs.files.lookup p = none ∧ p ∈ fs.logFiles ∧ d = emptyFileDoc) := by
  unfold readConfigFile at h
  cases hl : fs.files.lookup p with
  | some d2 =>
    rw [hl] at h
    simp only [ReadResult.doc.injEq] at h
    exact .inl (h ▸ rfl)
  | none =>
    rw [hl] at h
    by_cases h1 : p ∈ fs.logFiles
    · rw [if_pos h1] at h
      simp only [ReadResult.doc.injEq] at h
      exact .inr ⟨rfl, h1, h.symm⟩
    · rw [if_neg h1] at h
      by_cases h2 : p ∈ fs.dirs
      · rw [if_pos h2] at h
        exact absurd h (by simp)
      · rw [if_neg h2] at h
        exact absurd h (by simp)

/-- A successful config read survives a state change that preserves the
files and can only add log files. -/
theorem read_stable (p : String) (fs fs2 : Fs) (d : FileDoc)
    (hfiles : fs2.files = fs.files)
    (hlog : ∀ q, q ∈ fs.logFiles → q ∈ fs2.logFiles)
    (h : readConfigFile p fs = .doc d) : readConfigFile p fs2 = .doc d := by
  rcases read_doc_cases p fs d h with hc | ⟨hc1, hc2, hc3⟩
  · unfold readConfigFile
    rw [hfiles, hc]
  · unfold readConfigFile
    rw [hfiles, hc1, if_pos (hlog p hc2), hc3]

/-- A successful non-dry load reads a document and finishes from it. -/
theorem loadBody_ok_read (e : Env) (paths : AppPaths) (flags : CommonFlags) (fs : Fs)
    (cfg : AppConfig) (hd : flags.dryRun = false)
    (h : loadConfigBody e paths flags fs = .ok cfg) :
    ∃ d, readConfigFile paths.configFile fs = .doc d ∧ finishLoad e d = .ok cfg := by
  unfold loadConfigBody at h
  cases hr : readConfigFile paths.configFile fs with
  | unreadable => rw [hr] at h; exact absurd h (by simp)
  | missing => rw [hr] at h; rw [hd] at h; exact absurd h (by simp)
  | doc d => rw [hr] at h; exact ⟨d, rfl, h⟩

/-- The state and body facts carried by a successful non-dry load. -/
theorem load_ok_shape (e : Env) (paths : AppPaths) (flags : CommonFlags) (fs : Fs)
    (cfg : AppConfig) (fs1 : Fs) (hd : flags.dryRun = false)
    (h : loadOrInitConfig e paths flags fs = (.ok cfg, fs1)) :
    loadConfigBody e paths flags fs1 = .ok cfg ∧
    (statExists paths.configFile fs = true → fs1 = fs) ∧
    (statExists paths.configFile fs = false →
      writeDefaultConfig paths.configFile fs = (.ok (), fs1)) := by
  unfold loadOrInitConfig at h
  by_cases hst : statExists paths.configFile fs = true
  · rw [if_pos hst] at h
    simp only [Prod.mk.injEq] at h
    obtain ⟨hb, hfs⟩ := h
    subst hfs
    exact ⟨hb, fun _ => rfl, fun hc => absurd hst (by simp [hc])⟩
  · rw [if_neg hst] at h
    rw [if_neg (by simp [hd])] at h
    split at h
    next er fsw hw => exact absurd h (by simp)
    next v fsw hw =>
      simp only [Prod.mk.injEq] at h
      obtain ⟨hb, hfs⟩ := h
      subst hfs
      refine ⟨hb, fun hc => absurd hc hst, fun _ => ?_⟩
      cases v
      exact hw

/-- Loading again against any state whose files agree with and whose log
files include those of a state where the body succeeded is a no-op
returning the same configuration. -/
theorem load_again (e : Env) (paths : AppPaths) (flags : CommonFlags) (fsA fs2 : Fs)
    (cfg : AppConfig) (hd : flags.dryRun = false)
    (hb : loadConfigBody e paths flags fsA = .ok cfg)
    (hfiles : fs2.files = fsA.files)
    (hlog : ∀ q, q ∈ fsA.logFiles → q ∈ fs2.logFiles) :
    loadOrInitConfig e paths flags fs2 = (.ok cfg, fs2) := by
  obtain ⟨d, hr, hf⟩ := loadBody_ok_read e paths flags fsA cfg hd hb
  have hr2 : readConfigFile paths.configFile fs2 = .doc d :=
    read_stable _ fsA fs2 d hfiles hlog hr
  have hst2 : statExists paths.configFile fs2 = true := read_doc_stat _ fs2 d hr2
  unfold loadOrInitConfig
  rw [if_pos hst2]
  unfold loadConfigBody
  rw [hr2]
  simp only [hf]

/-- Merging an integer key that carries a default always yields a value. -/
theorem mergeInt_dflt_isSome (e : Env) (k : String) (fv : Option Int) (n : Int)
    (t : Option Int) (h : mergeIntField e k fv (some n) = .ok t) : t.isSome = true := by
  unfold mergeIntField at h
  rw [if_neg (by simp)] at h
  cases hv : viperEnvLookup e k with
  | some s =>
    rw [hv] at h
    dsimp only at h
    cases hp : parseIntStr s with
    | none => rw [hp] at h; exact absurd h (by simp)
    | some v =>
      rw [hp] at h
      simp only [Except.ok.injEq] at h
      rw [← h]
      rfl
  | none =>
    rw [hv] at h
    dsimp only at h
    simp only [Except.ok.injEq] at h
    rw [← h]
    cases fv <;> rfl

/-- Merging the timeout key with no environment override and a file value
that is absent or already the default yields the default sixty. -/
theorem mergeInt_sixty (e : Env) (k : String) (fv : Option Int)
    (hfv : fv = none ∨ fv = some 60) (he : viperEnvLookup e k = none) :
    mergeIntField e k fv (some 60) = .ok (some 60) := by
  rcases hfv with hfv | hfv <;> subst hfv <;> unfold mergeIntField <;>
    rw [if_neg (by simp), he]

/-- The timeout field of a successful unmarshal: always present, and equal
to the default sixty when the file leaves it out (or already carries sixty)
and the environment does not override it. -/
theorem unmarshal_timeout (e : Env) (d : FileDoc) (cfg : AppConfig)
    (h : viperUnmarshal e d = .ok cfg) :
    cfg.runtime.timeoutSeconds.isSome = true ∧
    ((d.runtimeTimeout = none ∨ d.runtimeTimeout = some 60) →
      viperEnvLookup e "runtime.timeout" = none →
      cfg.runtime.timeoutSeconds = some 60) := by
  unfold viperUnmarshal at h
  cases ht : mergeIntField e "runtime.timeout" d.runtimeTimeout (some 60) with
  | error er => rw [ht] at h; simp [Bind.bind, Except.bind] at h
  | ok t =>
    rw [ht] at h
    cases hp : mergeIntField e "runtime.parallelism" d.runtimeParallelism none with
    | error er => rw [hp] at h; simp [Bind.bind, Except.bind] at h
    | ok par =>
      rw [hp] at h
      cases hf : mergeBoolField e "runtime.fail_fast" d.runtimeFailFast (some true) with
      | error er => rw [hf] at h; simp [Bind.bind, Except.bind] at h
      | ok ff =>
        rw [hf] at h
        simp only [Bind.bind, Except.bind, Except.ok.injEq] at h
        constructor
        · rw [← h]
          exact mergeInt_dflt_isSome e _ d.runtimeTimeout 60 t ht
        · intro hfv he
          rw [← h]
          have h60 := mergeInt_sixty e "runtime.timeout" d.runtimeTimeout hfv he
          rw [ht] at h60
          simp only [Except.ok.injEq] at h60
          simp [h60]

/-- The timeout field survives finishLoad: the expansion step only touches
the logging file and the final substitution fills an absent timeout with
sixty. -/
theorem finishLoad_timeout (e : Env) (d : FileDoc) (cfg : AppConfig)
    (h : finishLoad e d = .ok cfg) :
    ∃ cfg0, viperUnmarshal e d = .ok cfg0 ∧
      cfg.runtime.timeoutSeconds =
        (match cfg0.runtime.timeoutSeconds with
         | none => some 60
         | some t => some t) := by
  unfold finishLoad at h
  cases hv : viperUnmarshal e d with
  | error er => rw [hv] at h; simp [Bind.bind, Except.bind] at h
  | ok cfg0 =>
    rw [hv] at h
    simp only [Bind.bind, Except.bind] at h
    refine ⟨cfg0, rfl, ?_⟩
    by_cases hlf : cfg0.logging.file ≠ ""
    · rw [if_pos hlf] at h
      cases hx : expandPath e cfg0.logging.file with
      | error er => rw [hx] at h; simp [Bind.bind, Except.bind] at h
      | ok ex =>
        rw [hx] at h
        simp only [Bind.bind, Except.bind, Except.ok.injEq] at h
        rw [← h]
        by_cases hn : cfg0.runtime.timeoutSeconds = none
        · simp [hn]
        · cases hts : cfg0.runtime.timeoutSeconds with
          | none => exact absurd hts hn
          | some t => simp [hts]
    · rw [if_neg hlf] at h
      simp only [Bind.bind, Except.bind, Except.ok.injEq] at h
      rw [← h]
      by_cases hn : cfg0.runtime.timeoutSeconds = none
      · simp [hn]
      · cases hts : cfg0.runtime.timeoutSeconds with
        | none => exact absurd hts hn
        | some t => simp [hts]

/-- A path with no entry at all reads as missing. -/
theorem stat_false_read_missing (p : String) (fs : Fs)
    (h : statExists p fs = false) : readConfigFile p fs = .missing := by
  unfold statExists fileExistsAt at h
  simp only [Bool.or_eq_false_iff] at h
  obtain ⟨⟨h1, h2⟩, h3⟩ := h
  unfold readConfigFile
  cases hl : fs.files.lookup p with
  | some d2 => rw [hl] at h1; simp at h1
  | none =>
    rw [if_neg (by simpa using h2), if_neg (by simpa using h3)]

/-- Every successful load finishes from a document that is either the
stored file at the config path, the empty parse, or the written default
template. -/
theorem load_ok_doc (e : Env) (paths : AppPaths) (flags : CommonFlags) (fs : Fs)
    (cfg : AppConfig) (fs1 : Fs)
    (h : loadOrInitConfig e paths flags fs = (.ok cfg, fs1)) :
    ∃ d, finishLoad e d = .ok cfg ∧
      (fs.files.lookup paths.configFile = some d ∨ d = emptyFileDoc ∨ d = defaultFileDoc) := by
  unfold loadOrInitConfig at h
  by_cases hst : statExists paths.configFile fs = true
  · rw [if_pos hst] at h
    simp only [Prod.mk.injEq] at h
    obtain ⟨hb, -⟩ := h
    unfold loadConfigBody at hb
    cases hr : readConfigFile paths.configFile fs with
    | unreadable => rw [hr] at hb; exact absurd hb (by simp)
    | missing =>
      rw [hr] at hb
      by_cases hdry : flags.dryRun = true
      · rw [if_pos hdry] at hb
        exact ⟨emptyFileDoc, hb, .inr (.inl rfl)⟩
      · rw [if_neg hdry] at hb
        exact absurd hb (by simp)
    | doc d =>
      rw [hr] at hb
      rcases read_doc_cases _ fs d hr with hc | ⟨-, -, hc⟩
      · exact ⟨d, hb, .inl hc⟩
      · exact ⟨d, hb, .inr (.inl hc)⟩
  · rw [if_neg hst] at h
    by_cases hdry : flags.dryRun = true
    · rw [if_pos hdry] at h
      simp only [Prod.mk.injEq] at h
      obtain ⟨hb, -⟩ := h
      unfold loadConfigBody at hb
      rw [stat_false_read_missing _ fs (by simpa using hst), if_pos hdry] at hb
      exact ⟨emptyFileDoc, hb, .inr (.inl rfl)⟩
    · rw [if_neg hdry] at h
      split at h
      next er fsw hw => exact absurd h (by simp)
      next v fsw hw =>
        simp only [Prod.mk.injEq] at h
        obtain ⟨hb, -⟩ := h
        unfold loadConfigBody at hb
        obtain ⟨hwf, -, -, -, -⟩ := writeDefaultConfig_ok _ fs v fsw hw
        have hr : readConfigFile paths.configFile fsw = .doc defaultFileDoc := by
          unfold readConfigFile
          rw [hwf]
          simp [List.lookup]
        rw [hr] at hb
        exact ⟨defaultFileDoc, hb, .inr (.inr rfl)⟩

/-- C2: whenever LoadOrInitConfig succeeds the returned configuration has a
timeout value (never nil), and when the config file at the path carries no
runtime.timeout key (and the environment does not override the key) the
value is the process-wide default sixty — the same number the generated
on-disk template text carries on its timeout line. -/
theorem c2_timeout_never_unset (e : Env) (paths : AppPaths) (flags : CommonFlags)
    (fs : Fs) (cfg : AppConfig) (fs1 : Fs)
    (h : loadOrInitConfig e paths flags fs = (.ok cfg, fs1)) :
    cfg.runtime.timeoutSeconds.isSome = true ∧
    ((∀ d, fs.files.lookup paths.configFile = some d → d.runtimeTimeout = none) →
      viperEnvLookup e "runtime.timeout" = none →
      cfg.runtime.timeoutSeconds = some 60) ∧
    templateTimeout = some 60 ∧ defaultFileDoc.runtimeTimeout = some 60 := by
  obtain ⟨d, hf, hcase⟩ := load_ok_doc e paths flags fs cfg fs1 h
  obtain ⟨cfg0, hu, heq⟩ := finishLoad_timeout e d cfg hf
  obtain ⟨hsome, h60⟩ := unmarshal_timeout e d cfg0 hu
  refine ⟨?_, ?_, by decide, rfl⟩
  · rw [heq]
    cases cfg0.runtime.timeoutSeconds <;> rfl
  · intro hfiledoc henv
    have hd60 : d.runtimeTimeout = none ∨ d.runtimeTimeout = some 60 := by
      rcases hcase with hc | hc | hc
      · exact .inl (hfiledoc d hc)
      · exact .inl (by rw [hc]; rfl)
      · exact .inr (by rw [hc]; rfl)
    have ht := h60 hd60 henv
    rw [heq, ht]

/-- C2 witness: loading against the empty filesystem (the file is created
from the template) with no environment overrides yields the sixty-second
timeout. -/
theorem c2_witness :
    loadOrInitConfig sampleEnv c6paths sampleFlags emptyFs = (.ok c2cfg, c2fs) ∧
    c2cfg.runtime.timeoutSeconds = some 60 :=
  ⟨by decide,
    (c2_timeout_never_unset sampleEnv c6paths sampleFlags emptyFs c2cfg c2fs
      (by decide)).2.1 (by decide) (by decide)⟩

/-- ApplyPathOverrides never changes the configuration file path. -/
theorem apply_configFile (e : Env) (paths : AppPaths) (cfg : AppConfig) (out : AppPaths)
    (h : applyPathOverrides e paths cfg = .ok out) :
    out.configFile = paths.configFile := by
  unfold applyPathOverrides at h
  by_cases hd : cfg.paths.dataDir ≠ "" <;> by_cases hs : cfg.paths.stateDir ≠ "" <;>
    simp only [hd, hs, ite_true, ite_false, if_pos, if_neg] at h <;>
    cases hde : expandPath e cfg.paths.dataDir <;>
    cases hse : expandPath e cfg.paths.stateDir <;>
    simp_all [Bind.bind, Except.bind, pure, Except.pure] <;>
    rw [← h]

/-- A dry-run load never changes the filesystem. -/
theorem load_dry_frame (e : Env) (paths : AppPaths) (flags : CommonFlags) (fs : Fs)
    (hd : flags.dryRun = true) : (loadOrInitConfig e paths flags fs).2 = fs := by
  unfold loadOrInitConfig
  by_cases hst : statExists paths.configFile fs = true
  · rw [if_pos hst]
  · rw [if_neg hst, if_pos hd]

/-- A dry-run EnsureDirectories is a no-op. -/
theorem ensure_dry (paths : AppPaths) (flags : CommonFlags) (fs : Fs)
    (hd : flags.dryRun = true) : ensureDirectories paths flags fs = (.ok (), fs) := by
  unfold ensureDirectories
  rw [if_pos hd]

/-- A dry-run ResolveLogSettings opens nothing: it succeeds with no file
handle and leaves the filesystem unchanged. -/
theorem resolve_dry (e : Env) (flags : CommonFlags) (cfg : AppConfig) (fs : Fs)
    (hd : flags.dryRun = true) :
    resolveLogSettings e flags cfg fs =
      (.ok { level := resolvedLevel flags cfg, diagnostics := flags.diagnostics,
             colorize := shouldColorize (resolvedColorPolicy flags) e.stderrTerminal,
             writers := if flags.quiet then [.discard] else [.stderr],
             fileHandle := none }, fs) := by
  unfold resolveLogSettings
  rw [if_neg (by simp [hd])]

/-- Path discovery only consults the directories of the filesystem. -/
theorem discover_dirs_congr (e : Env) (a o : String) (fs fs2 : Fs)
    (h : fs2.dirs = fs.dirs) :
    discoverPaths e a o fs2 = discoverPaths e a o fs := by
  unfold discoverPaths resolveConfigFile statIsDir
  simp only [h]

/-- The guaranteed-present transformation leaves the directories alone. -/
theorem withDefault_dirs (p : String) (fs : Fs) :
    (withDefaultConfigAt p fs).dirs = fs.dirs := by
  unfold withDefaultConfigAt
  by_cases h : statExists p fs = true
  · rw [if_pos h]
  · rw [if_neg h]

/-- The guaranteed-present transformation indeed guarantees presence. -/
theorem withDefault_stat (p : String) (fs : Fs) :
    statExists p (withDefaultConfigAt p fs) = true := by
  unfold withDefaultConfigAt
  by_cases h : statExists p fs = true
  · rw [if_pos h]
    exact h
  · rw [if_neg h]
    unfold statExists fileExistsAt
    simp [List.lookup]

/-- An existing entry makes the guaranteed-present transformation a no-op. -/
theorem withDefault_noop (p : String) (fs : Fs) (h : statExists p fs = true) :
    withDefaultConfigAt p fs = fs := by
  unfold withDefaultConfigAt
  rw [if_pos h]

/-- A missing read means nothing exists at the path. -/
theorem read_missing_stat (p : String) (fs : Fs)
    (h : readConfigFile p fs = .missing) : statExists p fs = false := by
  unfold readConfigFile at h
  cases hl : fs.files.lookup p with
  | some d => rw [hl] at h; simp at h
  | none =>
    rw [hl] at h
    by_cases h1 : p ∈ fs.logFiles
    · rw [if_pos h1] at h; simp at h
    · by_cases h2 : p ∈ fs.dirs
      · rw [if_neg h1, if_pos h2] at h; simp at h
      · unfold statExists fileExistsAt
        simp [hl, h1, h2]

/-- A string key whose file value equals the viper default merges the same
as an absent file value. -/
theorem mergeStr_self_dflt (e : Env) (k v : String) :
    mergeStrField e k (some v) (some v) = mergeStrField e k none (some v) := by
  unfold mergeStrField
  rw [if_neg (by simp), if_neg (by simp)]

/-- An integer key whose file value equals the viper default merges the same
as an absent file value. -/
theorem mergeInt_self_dflt (e : Env) (k : String) (v : Int) :
    mergeIntField e k (some v) (some v) = mergeIntField e k none (some v) := by
  unfold mergeIntField
  rw [if_neg (by simp), if_neg (by simp)]

/-- A boolean key whose file value equals the viper default merges the same
as an absent file value. -/
theorem mergeBool_self_dflt (e : Env) (k : String) (v : Bool) :
    mergeBoolField e k (some v) (some v) = mergeBoolField e k none (some v) := by
  unfold mergeBoolField
  rw [if_neg (by simp), if_neg (by simp)]

/-- The written default template unmarshals exactly as an absent or empty
file does: its live keys coincide with the viper defaults. -/
theorem unmarshal_default_eq_empty (e : Env) :
    viperUnmarshal e defaultFileDoc = viperUnmarshal e emptyFileDoc := by
  unfold viperUnmarshal defaultFileDoc emptyFileDoc
  dsimp only
  rw [mergeInt_self_dflt e "runtime.timeout" 60, mergeBool_self_dflt e "runtime.fail_fast" true,
    mergeStr_self_dflt e "profile" "default", mergeStr_self_dflt e "logging.level" "info"]

/-- Finishing from the written default template equals finishing from the
empty document. -/
theorem finish_default_eq_empty (e : Env) :
    finishLoad e defaultFileDoc = finishLoad e emptyFileDoc := by
  unfold finishLoad
  rw [unmarshal_default_eq_empty]

/-- The dry-run body equals the non-dry body from the guaranteed file. -/
theorem body_withDefault (e : Env) (paths : AppPaths) (flags flags2 : CommonFlags)
    (fs : Fs) (cfg : AppConfig) (hd : flags.dryRun = true)
    (hb : loadConfigBody e paths flags fs = .ok cfg) :
    loadConfigBody e paths flags2 (withDefaultConfigAt paths.configFile fs) = .ok cfg := by
  unfold loadConfigBody at hb ⊢
  cases hr : readConfigFile paths.configFile fs with
  | unreadable => rw [hr] at hb; exact absurd hb (by simp)
  | doc d =>
    rw [hr] at hb
    have hst : statExists paths.configFile fs = true := read_doc_stat _ fs d hr
    rw [withDefault_noop _ fs hst, hr]
    exact hb
  | missing =>
    rw [hr, if_pos hd] at hb
    have hst : statExists paths.configFile fs = false := read_missing_stat _ fs hr
    have hr2 : readConfigFile paths.configFile (withDefaultConfigAt paths.configFile fs) =
        .doc defaultFileDoc := by
      unfold withDefaultConfigAt
      rw [if_neg (by simp [hst])]
      unfold readConfigFile
      simp [List.lookup]
    rw [hr2]
    have hb2 : finishLoad e emptyFileDoc = .ok cfg := hb
    show finishLoad e defaultFileDoc = .ok cfg
    rw [finish_default_eq_empty]
    exact hb2

/-- C3: under dry-run the whole bootstrap performs no filesystem mutation
whatsoever (no default config write, no directory creation, no log-file
opening), and a successful dry-run bootstrap carries exactly the paths and
configuration a non-dry-run bootstrap produces against the same world with
an identical (default) config file pre-existing. -/
theorem c3_dry_run_frame (e : Env) (flags : CommonFlags) (fs : Fs)
    (hd : flags.dryRun = true) :
    (newRuntimeContext e flags fs).2 = fs ∧
    (∀ r fs1, newRuntimeContext e flags fs = (.ok r, fs1) →
      ∀ r2 fs2, newRuntimeContext e { flags with dryRun := false }
          (withDefaultConfigAt r.paths.configFile fs) = (.ok r2, fs2) →
        r2.paths = r.paths ∧ r2.config = r.config) := by
  constructor
  · unfold newRuntimeContext
    cases hdp : discoverPaths e appName flags.configPath fs with
    | error er => rfl
    | ok paths =>
      dsimp only
      have hl2 : (loadOrInitConfig e paths flags fs).2 = fs := load_dry_frame e paths flags fs hd
      cases hl : loadOrInitConfig e paths flags fs with
      | mk res fsA =>
        have hfsA : fsA = fs := by rw [hl] at hl2; exact hl2
        rw [hfsA]
        cases res with
        | error er => rfl
        | ok cfg =>
          dsimp only
          cases hap : applyPathOverrides e paths cfg with
          | error er => rfl
          | ok eff =>
            dsimp only
            rw [ensure_dry eff flags fs hd]
            dsimp only
            rw [resolve_dry e flags cfg fs hd]
  · intro r fs1 h1 r2 fs2 h2
    unfold newRuntimeContext at h1
    split at h1
    next er hdp => exact absurd h1 (by simp)
    next paths hdp =>
      split at h1
      next er fsA hl => exact absurd h1 (by simp)
      next cfg fsA hl =>
        split at h1
        next er hap => exact absurd h1 (by simp)
        next eff hap =>
          split at h1
          next er fsB hen => exact absurd h1 (by simp)
          next u fsB hen =>
            split at h1
            next er fsC hre => exact absurd h1 (by simp)
            next ls fsC hre =>
              simp only [Prod.mk.injEq, Except.ok.injEq] at h1
              obtain ⟨hr, -⟩ := h1
              -- the dry run never touched the state
              have hfsA : fsA = fs := by
                have hfr := load_dry_frame e paths flags fs hd
                rw [hl] at hfr
                exact hfr
              rw [hfsA] at hl
              -- the config file of the produced context is the discovered one
              have hcf : r.paths.configFile = paths.configFile := by
                rw [← hr]
                exact apply_configFile e paths cfg eff hap
              -- decompose the non-dry run against the guaranteed file
              rw [hcf] at h2
              unfold newRuntimeContext at h2
              have hdp2 : discoverPaths e appName
                  ({ flags with dryRun := false } : CommonFlags).configPath
                  (withDefaultConfigAt paths.configFile fs) = .ok paths := by
                have hc := discover_dirs_congr e appName flags.configPath fs
                  (withDefaultConfigAt paths.configFile fs)
                  (withDefault_dirs paths.configFile fs)
                simpa [hc] using hdp
              rw [hdp2] at h2
              dsimp only at h2
              have hb1 : loadConfigBody e paths flags fs = .ok cfg := by
                unfold loadOrInitConfig at hl
                by_cases hst : statExists paths.configFile fs = true
                · rw [if_pos hst] at hl
                  simp only [Prod.mk.injEq] at hl
                  exact hl.1
                · rw [if_neg hst, if_pos hd] at hl
                  simp only [Prod.mk.injEq] at hl
                  exact hl.1
              have hl2 : loadOrInitConfig e paths { flags with dryRun := false }
                  (withDefaultConfigAt paths.configFile fs) =
                  (.ok cfg, withDefaultConfigAt paths.configFile fs) := by
                unfold loadOrInitConfig
                rw [if_pos (withDefault_stat paths.configFile fs)]
                rw [body_withDefault e paths flags { flags with dryRun := false } fs cfg hd hb1]
              rw [hl2] at h2
              dsimp only at h2
              rw [hap] at h2
              dsimp only at h2
              split at h2
              next er fsD hen2 => exact absurd h2 (by simp)
              next u2 fsD hen2 =>
                split at h2
                next er fsE hre2 => exact absurd h2 (by simp)
                next ls2 fsE hre2 =>
                  simp only [Prod.mk.injEq, Except.ok.injEq] at h2
                  obtain ⟨hr2, -⟩ := h2
                  rw [← hr2, ← hr]
                  exact ⟨rfl, rfl⟩

/-- C3 witness: a dry bootstrap of the empty filesystem leaves it empty and
matches the non-dry bootstrap against the guaranteed default file. -/
theorem c3_witness :
    newRuntimeContext sampleEnv dryFlags emptyFs = (.ok c3rtx, emptyFs) ∧
    newRuntimeContext sampleEnv { dryFlags with dryRun := false }
      (withDefaultConfigAt c3rtx.paths.configFile emptyFs) = (.ok c3snd, c3sndFs) ∧
    (c3snd.paths = c3rtx.paths ∧ c3snd.config = c3rtx.config) :=
  ⟨by decide, by decide,
    (c3_dry_run_frame sampleEnv dryFlags emptyFs rfl).2 c3rtx emptyFs (by decide)
      c3snd c3sndFs (by decide)⟩

/-- When the override resolves to a path that is not a directory, the
discovered config file is that path itself. -/
theorem discover_override_cf (e : Env) (a o : String) (fs : Fs) (paths : AppPaths)
    (E : String) (ho : o ≠ "") (hx : expandPath e o = .ok E)
    (hnd : statIsDir E fs = false)
    (h : discoverPaths e a o fs = .ok paths) : paths.configFile = E := by
  unfold discoverPaths resolveConfigFile at h
  rw [if_pos ho] at h
  simp only [hx] at h
  rw [if_neg (by simp [hnd])] at h
  cases hdd : defaultDataDir e a with
  | error er => rw [hdd] at h; simp [Bind.bind, Except.bind] at h
  | ok dd =>
    rw [hdd] at h
    cases hsd : defaultStateDir e a with
    | error er => rw [hsd] at h; simp [Bind.bind, Except.bind] at h
    | ok sd =>
      rw [hsd] at h
      simp only [Bind.bind, Except.bind, Except.ok.injEq] at h
      rw [← h]

/-- Path discovery is stable under any state change that preserves the
directory status of the expanded override path. -/
theorem discover_stable (e : Env) (a o : String) (fs fs2 : Fs) (paths : AppPaths)
    (h : discoverPaths e a o fs = .ok paths)
    (hstat : ∀ E, o ≠ "" → expandPath e o = .ok E → statIsDir E fs2 = statIsDir E fs) :
    discoverPaths e a o fs2 = .ok paths := by
  unfold discoverPaths resolveConfigFile at h ⊢
  by_cases ho : o ≠ ""
  · rw [if_pos ho] at h ⊢
    cases hx : expandPath e o with
    | error er => rw [hx] at h; simp [Bind.bind, Except.bind] at h
    | ok E =>
      simp only [hx] at h ⊢
      rw [hstat E ho hx]
      exact h
  · rw [if_neg ho] at h ⊢
    exact h

/-- A non-dry load only grows the directories. -/
theorem load_dirs_mono (e : Env) (paths : AppPaths) (flags : CommonFlags) (fs : Fs)
    (cfg : AppConfig) (fsA : Fs) (hd : flags.dryRun = false)
    (h : loadOrInitConfig e paths flags fs = (.ok cfg, fsA)) :
    ∀ q, q ∈ fs.dirs → q ∈ fsA.dirs := by
  obtain ⟨-, hexist, hwrite⟩ := load_ok_shape e paths flags fs cfg fsA hd h
  by_cases hst : statExists paths.configFile fs = true
  · rw [hexist hst]
    exact fun q hq => hq
  · obtain ⟨-, -, hmono, -, -⟩ :=
      writeDefaultConfig_ok paths.configFile fs () fsA (hwrite (by simpa using hst))
    exact hmono

/-- A non-dry load of a config path that is not a directory leaves it
occupied by a regular file and not by a directory. -/
theorem load_cf_file (e : Env) (paths : AppPaths) (flags : CommonFlags) (fs : Fs)
    (cfg : AppConfig) (fsA : Fs) (hd : flags.dryRun = false)
    (hnd : paths.configFile ∉ fs.dirs)
    (h : loadOrInitConfig e paths flags fs = (.ok cfg, fsA)) :
    fileExistsAt paths.configFile fsA = true ∧ paths.configFile ∉ fsA.dirs := by
  obtain ⟨-, hexist, hwrite⟩ := load_ok_shape e paths flags fs cfg fsA hd h
  by_cases hst : statExists paths.configFile fs = true
  · rw [hexist hst]
    constructor
    · unfold statExists at hst
      rcases Bool.or_eq_true_iff.mp hst with hst | hst
      · exact hst
      · exact absurd (by simpa using hst) hnd
    · exact hnd
  · obtain ⟨hwf, -, -, -, hnotdir⟩ :=
      writeDefaultConfig_ok paths.configFile fs () fsA (hwrite (by simpa using hst))
    refine ⟨?_, hnotdir⟩
    unfold fileExistsAt
    rw [hwf]
    simp [List.lookup]

/-- C4: running the bootstrap twice against the same configuration path is
idempotent. A second run from the state a successful non-dry run produced
returns the very same context and changes nothing: in particular the config
file is not overwritten (the load writes only when the file does not
exist), and the ResolvedPaths/AppConfig pair is identical to the first
run's. -/
theorem c4_bootstrap_idempotent (e : Env) (flags : CommonFlags) (fs0 : Fs)
    (r : RtxData) (fs1 : Fs) (hd : flags.dryRun = false)
    (h : newRuntimeContext e flags fs0 = (.ok r, fs1)) :
    newRuntimeContext e flags fs1 = (.ok r, fs1) := by
  unfold newRuntimeContext at h
  split at h
  next er hdp => exact absurd h (by simp)
  next paths hdp =>
    split at h
    next er fsA hl => exact absurd h (by simp)
    next cfg fsA hl =>
      split at h
      next er hap => exact absurd h (by simp)
      next eff hap =>
        split at h
        next er fsB hen => exact absurd h (by simp)
        next u fsB hen =>
          split at h
          next er fsC hre => exact absurd h (by simp)
          next ls fsC hre =>
            simp only [Prod.mk.injEq, Except.ok.injEq] at h
            obtain ⟨hr, hfs1⟩ := h
            subst hfs1
            obtain ⟨henf, henl, henmono, henadd⟩ := ensure_frame eff flags fsA _ fsB hen
            obtain ⟨href, hred, hremono⟩ := resolve_frame e flags cfg fsB _ fsC hre
            obtain ⟨hbodyA, hexist, hwrite⟩ := load_ok_shape e paths flags fs0 cfg fsA hd hl
            have hstep1 : discoverPaths e appName flags.configPath fsC = .ok paths := by
              refine discover_stable e appName flags.configPath fs0 fsC paths hdp ?_
              intro E ho hx
              unfold statIsDir
              by_cases hE : E ∈ fs0.dirs
              · have h1 : E ∈ fsA.dirs := load_dirs_mono e paths flags fs0 cfg fsA hd hl E hE
                have h2 : E ∈ fsB.dirs := henmono E h1
                have h3 : E ∈ fsC.dirs := by rw [hred]; exact h2
                simp [hE, h3]
              · have hcf : paths.configFile = E :=
                  discover_override_cf e appName flags.configPath fs0 paths E ho hx
                    (by unfold statIsDir; simp [hE]) hdp
                have hEfs : fileExistsAt E fsA = true ∧ E ∉ fsA.dirs := by
                  have hcff := load_cf_file e paths flags fs0 cfg fsA hd
                    (by rw [hcf]; exact hE) hl
                  rw [hcf] at hcff
                  exact hcff
                have hEB : E ∉ fsB.dirs := by
                  intro hmem
                  rcases henadd E hmem with hmem | hmem
                  · exact hEfs.2 hmem
                  · rw [hEfs.1] at hmem
                    exact absurd hmem (by simp)
                have hEC : E ∉ fsC.dirs := by rw [hred]; exact hEB
                simp [hE, hEC]
            have hstep2 : loadOrInitConfig e paths flags fsC = (.ok cfg, fsC) := by
              refine load_again e paths flags fsA fsC cfg hd hbodyA ?_ ?_
              · rw [href, henf]
              · intro q hq
                exact hremono q (by rw [henl]; exact hq)
            have hstep4 : ensureDirectories eff flags fsC = (.ok (), fsC) := by
              obtain ⟨hm1, hm2⟩ := ensure_ok_mem eff flags fsA u fsB hd hen
              refine ensure_noop eff flags fsC ?_ ?_
              · by_cases hdd : eff.dataDir = ""
                · exact .inl hdd
                · refine .inr ?_
                  rw [hred]
                  exact hm1 hdd
              · by_cases hss : eff.stateDir = ""
                · exact .inl hss
                · refine .inr ?_
                  rw [hred]
                  exact hm2 hss
            have hstep5 : resolveLogSettings e flags cfg fsC = (.ok ls, fsC) :=
              resolve_again e flags cfg fsB ls fsC hre
            unfold newRuntimeContext
            simp only [hstep1, hstep2, hap, hstep4, hstep5]
            rw [hr]

/-- C4 witness: the concrete first run from the empty filesystem succeeds,
and the theorem applied to it shows the second run is the identical
fixed point. -/
theorem c4_witness :
    sampleFlags.dryRun = false ∧
    newRuntimeContext sampleEnv sampleFlags emptyFs = (.ok c4rtx, c4run.2) ∧
    newRuntimeContext sampleEnv sampleFlags c4run.2 = (.ok c4rtx, c4run.2) :=
  ⟨rfl, by decide,
    c4_bootstrap_idempotent sampleEnv sampleFlags emptyFs c4rtx c4run.2 rfl (by decide)⟩
